import Mathlib

/-!
# gocupi: a verification development

A shallow embedding of parts of the gocupi polargraph driver
(`gocupi.go`, `polargraph/generator.go`, `polargraph/interpolater_test.go`)
together with theorems about them.

Conventions of the embedding:

* Go `float64` values are embedded as exact rationals (`ℚ`) where the code only
  lists, negates or scales them, as exact reals where the spec's transform is
  stated over the reals, and as an arbitrary carrier with uninterpreted
  operations (`Float64Ops`, `Float64Arith`) where the outcome depends on what
  float64 comparison and arithmetic do (NaN, rounding).
* Go `int` values are embedded as `Int`; where a result can exceed the width of
  the platform's `int` it wraps around (`wrapInt`).
* A Go channel is embedded as the list of values it carries together with a
  `closed` flag.
-/

namespace Gocupi

/-! ## Data model -/

/-- Coordinate of the polargraph package: a Cartesian position with the pen flag. -/
structure Coordinate where
  X : ℚ := 0
  Y : ℚ := 0
  PenUp : Bool := false
deriving DecidableEq, Repr

instance : Inhabited Coordinate := ⟨{}⟩

/-! ## CoordinateRingBuffer (lookahead buffer) -/

/-- Modelled from the spec: the type `CoordinateRingBuffer` of the polargraph
package is not among the available sources (only its test is).  The spec calls
it a fixed-capacity circular FIFO: a backing array whose size is the capacity,
the index of the head, and the current length. -/
structure CoordinateRingBuffer where
  data : List Coordinate
  start : Nat
  length : Nat
deriving DecidableEq, Repr

/-- Modelled from the spec: `NewCoordinateRingBuffer(capacity)`, absent from the
sources; capacity is fixed at construction and the buffer starts empty. -/
def NewCoordinateRingBuffer (capacity : Nat) : CoordinateRingBuffer :=
  { data := List.replicate capacity default, start := 0, length := 0 }

/-- Modelled from the spec: `Cap()`, absent from the sources; the fixed capacity. -/
def CoordinateRingBuffer.Cap (b : CoordinateRingBuffer) : Nat := b.data.length

/-- Modelled from the spec: `Len()`, absent from the sources; the current length. -/
def CoordinateRingBuffer.Len (b : CoordinateRingBuffer) : Nat := b.length

/-- Modelled from the spec: `Enqueue`, absent from the sources; appends at the
tail of the circular FIFO.  No overflow check (caller contract). -/
def CoordinateRingBuffer.Enqueue (b : CoordinateRingBuffer) (c : Coordinate) :
    CoordinateRingBuffer :=
  { data := b.data.set ((b.start + b.length) % b.data.length) c
    start := b.start
    length := b.length + 1 }

/-- Modelled from the spec: `Dequeue`, absent from the sources; removes and
returns the head value.  No emptiness check (caller contract). -/
def CoordinateRingBuffer.Dequeue (b : CoordinateRingBuffer) :
    Coordinate × CoordinateRingBuffer :=
  (b.data.getD b.start default,
   { data := b.data
     start := (b.start + 1) % b.data.length
     length := b.length - 1 })

/-- One operation of a client of the ring buffer. -/
inductive BufOp where
  | enq (c : Coordinate)
  | deq
deriving DecidableEq, Repr

/-- Runs a sequence of operations, returning the dequeued values in the order
they were returned and the final buffer. -/
def runOps : List BufOp → CoordinateRingBuffer → List Coordinate × CoordinateRingBuffer
  | [], b => ([], b)
  | BufOp.enq c :: ops, b => runOps ops (b.Enqueue c)
  | BufOp.deq :: ops, b =>
      let r := b.Dequeue
      let rest := runOps ops r.2
      (r.1 :: rest.1, rest.2)

/-- The values enqueued by a sequence of operations, in enqueue order. -/
def enqueued : List BufOp → List Coordinate
  | [] => []
  | BufOp.enq c :: ops => c :: enqueued ops
  | BufOp.deq :: ops => enqueued ops

/-- Number of dequeue operations in a sequence. -/
def dequeueCount : List BufOp → Nat
  | [] => 0
  | BufOp.enq _ :: ops => dequeueCount ops
  | BufOp.deq :: ops => dequeueCount ops + 1

/-- The caller contract, stated on the operation sequence alone: starting with
`n` stored values and capacity `cap`, no enqueue happens on a full buffer and
no dequeue on an empty one. -/
def Contract (cap : Nat) : Nat → List BufOp → Prop
  | _, [] => True
  | n, BufOp.enq _ :: ops => n < cap ∧ Contract cap (n + 1) ops
  | n, BufOp.deq :: ops => 0 < n ∧ Contract cap (n - 1) ops

instance Contract.decidable (cap : Nat) : ∀ (n : Nat) (ops : List BufOp),
    Decidable (Contract cap n ops)
  | _, [] => isTrue trivial
  | n, BufOp.enq _ :: ops =>
      have := Contract.decidable cap (n + 1) ops
      inferInstanceAs (Decidable (n < cap ∧ Contract cap (n + 1) ops))
  | n, BufOp.deq :: ops =>
      have := Contract.decidable cap (n - 1) ops
      inferInstanceAs (Decidable (0 < n ∧ Contract cap (n - 1) ops))

/-- The stored values of a ring buffer from head to tail. -/
def CoordinateRingBuffer.contents (b : CoordinateRingBuffer) : List Coordinate :=
  (List.range b.length).map fun i => b.data.getD ((b.start + i) % b.data.length) default

/-- Representation invariant of the ring buffer. -/
structure CoordinateRingBuffer.WF (b : CoordinateRingBuffer) : Prop where
  start_lt : b.start < b.data.length
  length_le : b.length ≤ b.data.length

/-- The scenario of `TestCoordinateRingBuffer`: capacity 4, four enqueues, four
dequeues, then one more enqueue and dequeue on the emptied buffer. -/
def testOps : List BufOp :=
  [BufOp.enq {X := 1}, BufOp.enq {X := 2}, BufOp.enq {X := 3}, BufOp.enq {X := 4},
   BufOp.deq, BufOp.deq, BufOp.deq, BufOp.deq, BufOp.enq {X := 3}, BufOp.deq]

/-! ## Polar coordinate transform over the reals -/

/-- A Cartesian point over exact real arithmetic (the pen flag plays no part in
the transform). -/
structure RealPoint where
  x : ℝ
  y : ℝ

/-- A cable-length pair over exact real arithmetic. -/
structure RealPolarPoint where
  left : ℝ
  right : ℝ

/-- Modelled from the spec: `cartesian_to_polar` (`Coordinate.ToPolar`), absent
from the sources.  Left anchor at `(-D/2, 0)`, right anchor at `(D/2, 0)`;
`left = |p - left_anchor|`, `right = |p - right_anchor|`. -/
noncomputable def cartesian_to_polar (p : RealPoint) (D : ℝ) : RealPolarPoint :=
  { left := Real.sqrt ((p.x - (-D / 2)) ^ 2 + (p.y - 0) ^ 2)
    right := Real.sqrt ((p.x - D / 2) ^ 2 + (p.y - 0) ^ 2) }

/-- Modelled from the spec: `polar_to_cartesian` (`PolarCoordinate.ToCoord`),
absent from the sources.  `x = (left² - right² + D²) / (2D)`, then
`y = sqrt(left² - (x + D/2)²)`, positive root; fails with a `GeometryError`
(here `none`) if the radicand is negative. -/
noncomputable def polar_to_cartesian (pp : RealPolarPoint) (D : ℝ) : Option RealPoint :=
  let x := (pp.left ^ 2 - pp.right ^ 2 + D ^ 2) / (2 * D)
  let radicand := pp.left ^ 2 - (x + D / 2) ^ 2
  if radicand < 0 then none else some { x := x, y := Real.sqrt radicand }

/-! ## Channels, `FlipPlotCoords` and the `test` command -/

/-- The values sent on a channel by a producer, in order, and whether the
producer closed it. -/
structure Sent where
  items : List Coordinate
  closed : Bool
deriving DecidableEq, Repr

/-- What the claim says the flip stage does to one coordinate: `X` negated iff
`flipX`, `Y` negated iff `flipY`, `PenUp` unchanged. -/
def flipCoord (flipX flipY : Bool) (c : Coordinate) : Coordinate :=
  { X := if flipX then -c.X else c.X
    Y := if flipY then -c.Y else c.Y
    PenUp := c.PenUp }

/-- The loop of `FlipPlotCoords`: for each received coordinate, negate `X` if
`flipX`, negate `Y` if `flipY`, and send it. -/
def flipLoop (flipX flipY : Bool) : List Coordinate → List Coordinate → List Coordinate
  | [], out => out
  | coord :: coords, out =>
      let coord := if flipX then { coord with X := -coord.X } else coord
      let coord := if flipY then { coord with Y := -coord.Y } else coord
      flipLoop flipX flipY coords (out ++ [coord])

/-- `FlipPlotCoords`: `coords` is the finite stream received from the input
channel until it is closed; the result is what was sent on `flippedCoords`,
which the deferred `close` closes on return. -/
def FlipPlotCoords (flipX flipY : Bool) (coords : List Coordinate) : Sent :=
  { items := flipLoop flipX flipY coords [], closed := true }

/-- A buffered channel with no receiver running: its capacity, the queued
values and the closed flag. -/
structure Chan where
  cap : Nat
  buf : List Coordinate
  closed : Bool
deriving DecidableEq, Repr

/-- `make(chan Coordinate, cap)`. -/
def Chan.make (cap : Nat) : Chan := { cap := cap, buf := [], closed := false }

/-- A send on a channel nobody receives from yet: `none` when it would block
(the queue is full) or panic (the channel is closed). -/
def Chan.send (ch : Chan) (c : Coordinate) : Option Chan :=
  if ch.closed then none
  else if ch.buf.length < ch.cap then some { ch with buf := ch.buf ++ [c] }
  else none

/-- `close(ch)`. -/
def Chan.close (ch : Chan) : Option Chan :=
  if ch.closed then none else some { ch with closed := true }

/-- `case "test"` of `main`: nine sends on `plotCoords`, then `close`. -/
def testCommand (plotCoords : Chan) : Option Chan := do
  let plotCoords ← plotCoords.send { X := 0, Y := 0 }
  let plotCoords ← plotCoords.send { X := 10, Y := 0 }
  let plotCoords ← plotCoords.send { X := 10.1, Y := 0 }
  let plotCoords ← plotCoords.send { X := 10.1, Y := 10 }
  let plotCoords ← plotCoords.send { X := 10.1, Y := 10, PenUp := true }
  let plotCoords ← plotCoords.send { X := 20.1, Y := 10, PenUp := true }
  let plotCoords ← plotCoords.send { X := 20.1, Y := 15 }
  let plotCoords ← plotCoords.send { X := 20.1, Y := 15, PenUp := true }
  let plotCoords ← plotCoords.send { X := 0, Y := 0, PenUp := true }
  plotCoords.close

/-- The nine-point fixture as the claim lists it. -/
def testFixture : List Coordinate :=
  [ ⟨0, 0, false⟩, ⟨10, 0, false⟩, ⟨10.1, 0, false⟩, ⟨10.1, 10, false⟩, ⟨10.1, 10, true⟩,
    ⟨20.1, 10, true⟩, ⟨20.1, 15, false⟩, ⟨20.1, 15, true⟩, ⟨0, 0, true⟩ ]

/-! ## `GetArgsAsFloats` -/

/-- The ways `GetArgsAsFloats` can panic. -/
inductive Panic where
  | tooFewArgs
  | makeSliceNegative
  | indexOutOfRange (argIndex : Nat)
  | parseError (argIndex : Nat)
  | zeroValue (argIndex : Nat)
deriving DecidableEq, Repr

/-- The `for` loop of `GetArgsAsFloats`; `remaining` is `expectedCount - argIndex`.
`ParseFloat` stands for `strconv.ParseFloat(_, 64)`, `none` being a non-nil error. -/
def parseLoop (ParseFloat : String → Option ℚ) (args : List String) :
    Nat → Nat → List ℚ → Except Panic (List ℚ)
  | 0, _, numbers => Except.ok numbers
  | remaining + 1, argIndex, numbers =>
      match args[argIndex]? with
      | none => Except.error (Panic.indexOutOfRange argIndex)
      | some arg =>
        match ParseFloat arg with
        | none => Except.error (Panic.parseError argIndex)
        | some v =>
          let numbers := numbers.set argIndex v
          if numbers.getD argIndex 0 = 0 then Except.error (Panic.zeroValue argIndex)
          else parseLoop ParseFloat args remaining (argIndex + 1) numbers

/-- `GetArgsAsFloats(command, args, expectedCount)`: the returned slice, or the
panic that ends the call. -/
def GetArgsAsFloats (ParseFloat : String → Option ℚ) (command : String)
    (args : List String) (expectedCount : Int) : Except Panic (List ℚ) :=
  if (args.length : Int) < expectedCount then Except.error Panic.tooFewArgs
  else if expectedCount < 0 then Except.error Panic.makeSliceNegative
  else
    let numbers : List ℚ := List.replicate expectedCount.toNat 0
    parseLoop ParseFloat args expectedCount.toNat 0 numbers

/-- Whether a call ended in a panic. -/
def failed {ε α : Type} : Except ε α → Bool
  | Except.error _ => true
  | Except.ok _ => false

/-- A small stand-in for `strconv.ParseFloat` on a few literals. -/
def sampleParse (s : String) : Option ℚ :=
  if s = "0" then some 0
  else if s = "1" then some 1
  else if s = "2" then some 2
  else if s = "1000" then some 1000
  else none

/-! ## The `setup` command of `main` -/

/-- The float64 operations the `setup` command uses, over an arbitrary carrier
`F` of float64 values.  Nothing is assumed of them, so whatever IEEE arithmetic
does (rounding, infinities, NaN) is covered.  `isZero x` is `x == 0`; `le` is
not used by the code, only to state properties. -/
structure Float64Ops (F : Type) where
  zero : F
  add : F → F → F
  gt : F → F → Bool
  lt : F → F → Bool
  le : F → F → Bool
  isZero : F → Bool

/-- The `for` loop of `GetArgsAsFloats` over the carrier `F`; `remaining` is
`expectedCount - argIndex`, and `ParseFloat` stands for
`strconv.ParseFloat(_, 64)`, `none` being a non-nil error. -/
def parseLoopIn {F : Type} (ops : Float64Ops F) (ParseFloat : String → Option F)
    (args : List String) : Nat → Nat → List F → Except Panic (List F)
  | 0, _, numbers => Except.ok numbers
  | remaining + 1, argIndex, numbers =>
      match args[argIndex]? with
      | none => Except.error (Panic.indexOutOfRange argIndex)
      | some arg =>
        match ParseFloat arg with
        | none => Except.error (Panic.parseError argIndex)
        | some v =>
          let numbers := numbers.set argIndex v
          if ops.isZero (numbers.getD argIndex ops.zero) then
            Except.error (Panic.zeroValue argIndex)
          else parseLoopIn ops ParseFloat args remaining (argIndex + 1) numbers

/-- `GetArgsAsFloats(command, args, expectedCount)` over the carrier `F`, as the
`setup` command calls it: the returned slice, or the panic that ends the call. -/
def GetArgsAsFloatsIn {F : Type} (ops : Float64Ops F) (ParseFloat : String → Option F)
    (command : String) (args : List String) (expectedCount : Int) : Except Panic (List F) :=
  if (args.length : Int) < expectedCount then Except.error Panic.tooFewArgs
  else if expectedCount < 0 then Except.error Panic.makeSliceNegative
  else
    let numbers : List F := List.replicate expectedCount.toNat ops.zero
    parseLoopIn ops ParseFloat args expectedCount.toNat 0 numbers

/-- The fields of the global `Settings` that the `setup` command reads or writes. -/
structure SettingsData (F : Type) where
  SpoolHorizontalDistance_MM : F
  StartingLeftDist_MM : F
  StartingRightDist_MM : F
  DrawingSurfaceMinX_MM : F
  DrawingSurfaceMaxX_MM : F
  DrawingSurfaceMinY_MM : F
  DrawingSurfaceMaxY_MM : F

/-- PolarCoordinate of the polargraph package: the pair of cable lengths. -/
structure PolarCoordinate (F : Type) where
  LeftDist : F
  RightDist : F

/-- Coordinate of the polargraph package over the carrier `F`. -/
structure CoordinateOf (F : Type) where
  X : F
  Y : F
  PenUp : Bool := false

/-- The functions of the polargraph package called by `setup` whose bodies are
not among the available sources.  `PS` is the type `PolarSystem`; `ToCoord`
returns `none` when the call does not return a position. -/
structure SetupEnv (F PS : Type) where
  CalculateDerivedFields : SettingsData F → SettingsData F
  PolarSystemFromSettings : SettingsData F → PS
  ToCoord : PolarCoordinate F → PS → Option (CoordinateOf F)

/-- The observable actions of the `setup` command, in program order. -/
inductive SetupEvent (F PS : Type) where
  | panic (p : Panic)
  | errorIdlers
  | callToCoord (polarPos : PolarCoordinate F) (polarSystem : PS)
  | errorBounds (pos : CoordinateOf F)
  | reportPosition (pos : CoordinateOf F)
  | settingsWrite (s : SettingsData F)

/-- `case "setup"` of `main`: `args` is `flag.Args()` with `args[0] = "setup"`.
Returns the actions performed, starting with the call
`GetArgsAsFloats("setup", args[1:], 3)`. -/
def setup {F PS : Type} (ops : Float64Ops F) (env : SetupEnv F PS)
    (ParseFloat : String → Option F) (Settings : SettingsData F) (args : List String) :
    List (SetupEvent F PS) :=
  match GetArgsAsFloatsIn ops ParseFloat "setup" (args.drop 1) 3 with
  | Except.error p => [SetupEvent.panic p]
  | Except.ok params =>
    match params with
    | [p0, p1, p2] =>
      let Settings := { Settings with
        SpoolHorizontalDistance_MM := p0, StartingLeftDist_MM := p1, StartingRightDist_MM := p2 }
      if ops.gt Settings.SpoolHorizontalDistance_MM
          (ops.add Settings.StartingLeftDist_MM Settings.StartingRightDist_MM) then
        [SetupEvent.errorIdlers]
      else
        let Settings := env.CalculateDerivedFields Settings
        let polarSystem := env.PolarSystemFromSettings Settings
        let polarPos : PolarCoordinate F :=
          { LeftDist := Settings.StartingLeftDist_MM, RightDist := Settings.StartingRightDist_MM }
        match env.ToCoord polarPos polarSystem with
        | none => [SetupEvent.callToCoord polarPos polarSystem]
        | some pos =>
          if ops.lt pos.X Settings.DrawingSurfaceMinX_MM ||
              ops.gt pos.X Settings.DrawingSurfaceMaxX_MM ||
              ops.lt pos.Y Settings.DrawingSurfaceMinY_MM ||
              ops.gt pos.Y Settings.DrawingSurfaceMaxY_MM then
            [SetupEvent.callToCoord polarPos polarSystem, SetupEvent.errorBounds pos]
          else
            [SetupEvent.callToCoord polarPos polarSystem, SetupEvent.reportPosition pos,
             SetupEvent.settingsWrite Settings]
    | _ => [SetupEvent.panic (Panic.indexOutOfRange params.length)]

/-- The global settings at the time `setup` examines the pen position: after
the three assignments and `CalculateDerivedFields`. -/
def setupSettings {F PS : Type} (env : SetupEnv F PS) (Settings : SettingsData F)
    (D L R : F) : SettingsData F :=
  env.CalculateDerivedFields { Settings with
    SpoolHorizontalDistance_MM := D, StartingLeftDist_MM := L, StartingRightDist_MM := R }

/-- The cable-length pair `setup` hands to `ToCoord`. -/
def setupPolarPos {F PS : Type} (env : SetupEnv F PS) (Settings : SettingsData F)
    (D L R : F) : PolarCoordinate F :=
  { LeftDist := (setupSettings env Settings D L R).StartingLeftDist_MM
    RightDist := (setupSettings env Settings D L R).StartingRightDist_MM }

/-- The comparison of `a` with `b` behaves as in a total order: `a ≤ b` is the
negation of `a > b` and of `b < a`, as it is for float64 values other than NaN. -/
def Comparable {F : Type} (ops : Float64Ops F) (a b : F) : Prop :=
  ops.le a b = !ops.gt a b ∧ ops.le a b = !ops.lt b a

/-- The pen position lies within the drawing surface of the given settings. -/
def InBounds {F : Type} (ops : Float64Ops F) (s : SettingsData F) (pos : CoordinateOf F) :
    Prop :=
  ops.le s.DrawingSurfaceMinX_MM pos.X = true ∧ ops.le pos.X s.DrawingSurfaceMaxX_MM = true ∧
  ops.le s.DrawingSurfaceMinY_MM pos.Y = true ∧ ops.le pos.Y s.DrawingSurfaceMaxY_MM = true

/-- The pen position and the drawing surface bounds compare as in a total
order (none of them is NaN). -/
def BoundsComparable {F : Type} (ops : Float64Ops F) (s : SettingsData F)
    (pos : CoordinateOf F) : Prop :=
  Comparable ops s.DrawingSurfaceMinX_MM pos.X ∧ Comparable ops pos.X s.DrawingSurfaceMaxX_MM ∧
  Comparable ops s.DrawingSurfaceMinY_MM pos.Y ∧ Comparable ops pos.Y s.DrawingSurfaceMaxY_MM

/-- Whether an action is `Settings.Write()`. -/
def SetupEvent.isWrite {F PS : Type} : SetupEvent F PS → Bool
  | SetupEvent.settingsWrite _ => true
  | _ => false

/-- Whether an action is a call of `ToCoord`. -/
def SetupEvent.isToCoord {F PS : Type} : SetupEvent F PS → Bool
  | SetupEvent.callToCoord _ _ => true
  | _ => false

/-- Whether an action is the idler-distance error report. -/
def SetupEvent.isErrorIdlers {F PS : Type} : SetupEvent F PS → Bool
  | SetupEvent.errorIdlers => true
  | _ => false

/-- The triangle feasibility condition of cable lengths `L`, `R` and anchor
separation `D`. -/
def TriangleFeasible {F : Type} (ops : Float64Ops F) (D L R : F) : Prop :=
  ops.le D (ops.add L R) = true ∧ ops.le L (ops.add D R) = true ∧
  ops.le R (ops.add D L) = true

/-- A sample carrier of float64 values: the rationals, with `none` for NaN.
On small integers and NaN its operations agree with float64. -/
def sampleOps : Float64Ops (Option ℚ) :=
  { zero := some 0
    add := fun a b => match a, b with
      | some x, some y => some (x + y)
      | _, _ => none
    gt := fun a b => match a, b with
      | some x, some y => decide (x > y)
      | _, _ => false
    lt := fun a b => match a, b with
      | some x, some y => decide (x < y)
      | _, _ => false
    le := fun a b => match a, b with
      | some x, some y => decide (x ≤ y)
      | _, _ => false
    isZero := fun a => match a with
      | some x => decide (x = 0)
      | none => false }

/-- A small stand-in for `strconv.ParseFloat` into the sample carrier, on a
few literals and `NaN`. -/
def sampleParseFloat (s : String) : Option (Option ℚ) :=
  if s = "NaN" then some none
  else if s = "0" then some (some 0)
  else if s = "1" then some (some 1)
  else if s = "5" then some (some 5)
  else if s = "1000" then some (some 1000)
  else if s = "3000" then some (some 3000)
  else none

/-- A sample environment: derived fields leave the settings alone, the polar
system is the anchor separation, and `ToCoord` uses the anchor-at-origin
abscissa with height zero, NaN propagating. -/
def sampleEnv : SetupEnv (Option ℚ) (Option ℚ) :=
  { CalculateDerivedFields := fun s => s
    PolarSystemFromSettings := fun s => s.SpoolHorizontalDistance_MM
    ToCoord := fun pp d => match pp.LeftDist, pp.RightDist, d with
      | some l, some r, some d =>
          some { X := some ((l * l - r * r + d * d) / (2 * d)), Y := some 0 }
      | _, _, _ => some { X := none, Y := none } }

/-- Sample settings: a drawing surface of 1000 by 1000. -/
def sampleSettings : SettingsData (Option ℚ) :=
  { SpoolHorizontalDistance_MM := some 0, StartingLeftDist_MM := some 0
    StartingRightDist_MM := some 0
    DrawingSurfaceMinX_MM := some 0, DrawingSurfaceMaxX_MM := some 1000
    DrawingSurfaceMinY_MM := some 0, DrawingSurfaceMaxY_MM := some 1000 }

/-! ## Hilbert curve -/

/-- `hilbert_rot`: rotate/flip a quadrant; returns the new `(*x, *y)`. -/
def hilbert_rot (n : Int) (x y : Int) (rx ry : Int) : Int × Int :=
  if ry = 0 then
    let p : Int × Int := if rx = 1 then (n - 1 - x, n - 1 - y) else (x, y)
    (p.2, p.1)
  else (x, y)

/-- The `for s = 1; s < n; s *= 2` loop of `hilbert_d2xy`, with a bound on the
number of iterations; `none` when the bound is exhausted before the loop ends. -/
def hilbert_loop (n : Int) : Nat → Int → Int → Int → Int → Option (Int × Int)
  | 0, s, _, x, y => if s < n then none else some (x, y)
  | fuel + 1, s, t, x, y =>
      if s < n then
        let rx := Int.land 1 (Int.tdiv t 2)
        let ry := Int.land 1 (Int.xor t rx)
        let p := hilbert_rot s x y rx ry
        let x := p.1 + s * rx
        let y := p.2 + s * ry
        hilbert_loop n fuel (s * 2) (Int.tdiv t 4) x y
      else some (x, y)

/-- `hilbert_d2xy(n, d, &x, &y)`: the final `(*x, *y)`.  The loop doubles `s`
from 1, so `n` iterations always suffice. -/
def hilbert_d2xy (n : Int) (d : Int) : Option (Int × Int) :=
  hilbert_loop n n.toNat 1 d 0 0

/-- Two grid cells are edge-adjacent: they differ by exactly 1 in one
coordinate and agree in the other. -/
def EdgeAdjacent (p q : Int × Int) : Prop :=
  ((p.1 - q.1).natAbs = 1 ∧ p.2 = q.2) ∨ (p.1 = q.1 ∧ (p.2 - q.2).natAbs = 1)

instance (p q : Int × Int) : Decidable (EdgeAdjacent p q) := by
  unfold EdgeAdjacent; infer_instance

/-- One iteration of the loop of `hilbert_d2xy` on a non-negative `t`, with the
bit operations written arithmetically: `rx = (t / 2) mod 2`,
`ry = (t + rx) mod 2`. -/
def hilbertStep (s : Int) (t : Nat) (p : Int × Int) : Int × Int :=
  let rx : Int := ((t / 2 % 2 : Nat) : Int)
  let ry : Int := (((t + t / 2 % 2) % 2 : Nat) : Int)
  let r := hilbert_rot s p.1 p.2 rx ry
  (r.1 + s * rx, r.2 + s * ry)

/-- The cell reached after `j` iterations of the loop of `hilbert_d2xy` on the
non-negative index `d`. -/
def hilbertIter : Nat → Nat → Int × Int
  | 0, _ => (0, 0)
  | j + 1, d => hilbertStep (2 ^ j) (d / 4 ^ j) (hilbertIter j d)

/-! ## `GenerateHilbertCurve` -/

/-- Modelled from the spec: `Coordinate.Scaled`, absent from the sources; the
vector scaled by a factor (spec section 4.1), the pen flag carried along. -/
def Coordinate.Scaled (coord : Coordinate) (factor : ℚ) : Coordinate :=
  { X := coord.X * factor, Y := coord.Y * factor, PenUp := coord.PenUp }

/-- Parameters for grid. -/
structure Grid where
  Width : ℚ
  Cells : ℚ
deriving DecidableEq, Repr

/-- The conversion `int(f)` of a float: truncation toward zero. -/
def truncToInt (f : ℚ) : Int := Int.tdiv f.num (f.den : Int)

/-- The first loop of `GenerateGrid` (`for y := 0; y < cellInt; y++`);
`remaining` is `cellInt - y`, `out` the points sent so far. -/
def gridRowLoop (setup : Grid) (cellWidth : ℚ) : Nat → Int → List Coordinate → List Coordinate
  | 0, _, out => out
  | remaining + 1, y, out =>
      let yf : ℚ := (y : ℚ)
      let out :=
        if Int.tmod y 2 = 0 then
          out ++ [{ X := setup.Cells * cellWidth, Y := yf * cellWidth },
                  { X := setup.Cells * cellWidth, Y := (yf + 1) * cellWidth }]
        else
          out ++ [{ X := 0, Y := yf * cellWidth }, { X := 0, Y := (yf + 1) * cellWidth }]
      gridRowLoop setup cellWidth remaining (y + 1) out

/-- The second loop of `GenerateGrid` (`for x := 0; x < cellInt; x++`). -/
def gridColLoop (setup : Grid) (cellWidth : ℚ) : Nat → Int → List Coordinate → List Coordinate
  | 0, _, out => out
  | remaining + 1, x, out =>
      let xf : ℚ := (x : ℚ)
      let out :=
        if Int.tmod x 2 = 0 then
          out ++ [{ X := xf * cellWidth, Y := 0 }, { X := (xf + 1) * cellWidth, Y := 0 }]
        else
          out ++ [{ X := xf * cellWidth, Y := setup.Cells * cellWidth },
                  { X := (xf + 1) * cellWidth, Y := setup.Cells * cellWidth }]
      gridColLoop setup cellWidth remaining (x + 1) out

/-- `GenerateGrid`: what is sent on `plotCoords`, closed on return by the
deferred `close`. -/
def GenerateGrid (setup : Grid) : Sent :=
  let cellInt := truncToInt setup.Cells
  let cellWidth := setup.Width / setup.Cells
  let out := gridRowLoop setup cellWidth cellInt.toNat 0 []
  let out := out ++ [{ X := 0, Y := setup.Cells * cellWidth }]
  let out := gridColLoop setup cellWidth cellInt.toNat 0 out
  let out :=
    if Int.tmod cellInt 2 = 0 then out ++ [{ X := setup.Cells * cellWidth, Y := 0 }] else out
  { items := out ++ [{ X := 0, Y := 0 }], closed := true }

/-- The point `r` lies on the closed segment from `p` to `q`: collinear with
them and inside their bounding box. -/
def OnSegment (p q : Coordinate) (r : ℚ × ℚ) : Prop :=
  (q.X - p.X) * (r.2 - p.Y) - (q.Y - p.Y) * (r.1 - p.X) = 0 ∧
  ((p.X ≤ r.1 ∧ r.1 ≤ q.X) ∨ (q.X ≤ r.1 ∧ r.1 ≤ p.X)) ∧
  ((p.Y ≤ r.2 ∧ r.2 ≤ q.Y) ∨ (q.Y ≤ r.2 ∧ r.2 ≤ p.Y))

instance (p q : Coordinate) (r : ℚ × ℚ) : Decidable (OnSegment p q r) := by
  unfold OnSegment; infer_instance

/-- The edge from `a` to `b` lies on the segment between two consecutive
points of the path. -/
def EdgeDrawn : List Coordinate → ℚ × ℚ → ℚ × ℚ → Prop
  | p :: q :: rest, a, b => (OnSegment p q a ∧ OnSegment p q b) ∨ EdgeDrawn (q :: rest) a b
  | _, _, _ => False

instance EdgeDrawn.decidable : ∀ (path : List Coordinate) (a b : ℚ × ℚ),
    Decidable (EdgeDrawn path a b)
  | [], _, _ => isFalse (fun h => h)
  | [_], _, _ => isFalse (fun h => h)
  | p :: q :: rest, a, b =>
      have := EdgeDrawn.decidable (q :: rest) a b
      inferInstanceAs (Decidable ((OnSegment p q a ∧ OnSegment p q b) ∨ EdgeDrawn (q :: rest) a b))

/-- The pen path draws the whole `c × c` grid over the square of side `W`: all
four edges of every cell are drawn. -/
def GridDrawn (W : ℚ) (c : Nat) (path : List Coordinate) : Prop :=
  ∀ i j : Nat, i < c → j < c →
    EdgeDrawn path (i * (W / c), j * (W / c)) ((i + 1) * (W / c), j * (W / c)) ∧
    EdgeDrawn path (i * (W / c), (j + 1) * (W / c)) ((i + 1) * (W / c), (j + 1) * (W / c)) ∧
    EdgeDrawn path (i * (W / c), j * (W / c)) (i * (W / c), (j + 1) * (W / c)) ∧
    EdgeDrawn path ((i + 1) * (W / c), j * (W / c)) ((i + 1) * (W / c), (j + 1) * (W / c))

/-- The pen path of a drawing: the origin followed by the points sent. -/
def penPath (s : Sent) : List Coordinate := { X := 0, Y := 0 } :: s.items

/-! ## `GenerateParabolic` -/

/-- The float64 operations `GenerateParabolic` uses, over an arbitrary carrier
`F` of float64 values; nothing is assumed of them, so whatever IEEE arithmetic
and the math library do (rounding included) is covered.  `twoPi` is the
constant `2.0 * math.Pi`, `ofInt i` is `float64(i)` and `toInt f` is `int(f)`. -/
structure Float64Arith (F : Type) where
  zero : F
  twoPi : F
  add : F → F → F
  sub : F → F → F
  mul : F → F → F
  div : F → F → F
  cos : F → F
  sin : F → F
  ofInt : Int → F
  toInt : F → Int

/-- The zero value of `Coordinate`, also written `Coordinate{X: 0, Y: 0}`. -/
def CoordinateOf.origin {F : Type} (ops : Float64Arith F) : CoordinateOf F :=
  { X := ops.zero, Y := ops.zero }

/-- Modelled from the spec: `Coordinate.Minus`, absent from the sources; vector
subtraction (spec section 4.1), the pen flag of the receiver carried along. -/
def CoordinateOf.Minus {F : Type} (ops : Float64Arith F) (coord operand : CoordinateOf F) :
    CoordinateOf F :=
  { X := ops.sub coord.X operand.X, Y := ops.sub coord.Y operand.Y, PenUp := coord.PenUp }

/-- Modelled from the spec: `Coordinate.Add`, absent from the sources; vector
addition (spec section 4.1), the pen flag of the receiver carried along. -/
def CoordinateOf.Add {F : Type} (ops : Float64Arith F) (coord operand : CoordinateOf F) :
    CoordinateOf F :=
  { X := ops.add coord.X operand.X, Y := ops.add coord.Y operand.Y, PenUp := coord.PenUp }

/-- Modelled from the spec: `Coordinate.Scaled`, absent from the sources, over
the carrier `F`; the vector scaled by a factor (spec section 4.1). -/
def CoordinateOf.Scaled {F : Type} (ops : Float64Arith F) (coord : CoordinateOf F)
    (factor : F) : CoordinateOf F :=
  { X := ops.mul coord.X factor, Y := ops.mul coord.Y factor, PenUp := coord.PenUp }

/-- The values sent on a channel of coordinates over `F`, and whether it was
closed. -/
structure SentOf (F : Type) where
  items : List (CoordinateOf F)
  closed : Bool

/-- Parameters for parabolic curve. -/
structure Parabolic (F : Type) where
  Radius : F
  PolygonEdgeCount : F
  Lines : F

/-- The first loop of `GenerateParabolic`, filling `points[edge]`; `remaining`
is `edgeCountInt - edge`. -/
def parabolicPointsLoop {F : Type} (ops : Float64Arith F) (setup : Parabolic F) :
    Nat → Int → List (CoordinateOf F) → List (CoordinateOf F)
  | 0, _, points => points
  | remaining + 1, edge, points =>
      let angle := ops.mul (ops.div ops.twoPi setup.PolygonEdgeCount) (ops.ofInt edge)
      let points := points.set edge.toNat
        { X := ops.mul setup.Radius (ops.cos angle), Y := ops.mul setup.Radius (ops.sin angle) }
      parabolicPointsLoop ops setup remaining (edge + 1) points

/-- The inner loop of `GenerateParabolic` (`for lineIndex := 0; lineIndex <
linesCount; lineIndex++`); `remaining` is `linesCount - lineIndex`, `out` the
points sent so far. -/
def parabolicLineLoop {F : Type} (ops : Float64Arith F)
    (sourceBegin sourceEnd destBegin destEnd : CoordinateOf F) (linesCount : Int) :
    Nat → Int → List (CoordinateOf F) → List (CoordinateOf F)
  | 0, _, out => out
  | remaining + 1, lineIndex, out =>
      let startPercentage := ops.div (ops.ofInt lineIndex) (ops.ofInt linesCount)
      let endPercentage := ops.div (ops.ofInt (lineIndex + 1)) (ops.ofInt linesCount)
      let start := CoordinateOf.Add ops
        (CoordinateOf.Scaled ops (CoordinateOf.Minus ops sourceEnd sourceBegin) startPercentage)
        sourceBegin
      let endCoord := CoordinateOf.Add ops
        (CoordinateOf.Scaled ops (CoordinateOf.Minus ops destEnd destBegin) endPercentage)
        destBegin
      let out := if Int.tmod lineIndex 2 = 0 then out ++ [start, endCoord]
        else out ++ [endCoord, start]
      parabolicLineLoop ops sourceBegin sourceEnd destBegin destEnd linesCount remaining
        (lineIndex + 1) out

/-- The second outer loop of `GenerateParabolic` (`for edge := 0; edge <
edgeCountInt; edge++`); `remaining` is `edgeCountInt - edge`. -/
def parabolicEdgeLoop {F : Type} (ops : Float64Arith F) (points : List (CoordinateOf F))
    (edgeCountInt linesCount : Int) :
    Nat → Int → List (CoordinateOf F) → List (CoordinateOf F)
  | 0, _, out => out
  | remaining + 1, edge, out =>
      let sourceBegin := points.getD edge.toNat (CoordinateOf.origin ops)
      let sourceEnd : CoordinateOf F := { X := ops.zero, Y := ops.zero }
      let destBegin : CoordinateOf F := { X := ops.zero, Y := ops.zero }
      let destEnd := points.getD (Int.tmod (edge + 1) edgeCountInt).toNat (CoordinateOf.origin ops)
      let out := parabolicLineLoop ops sourceBegin sourceEnd destBegin destEnd linesCount
        linesCount.toNat 0 out
      let out := out ++ [{ X := ops.zero, Y := ops.zero }]
      parabolicEdgeLoop ops points edgeCountInt linesCount remaining (edge + 1) out

/-- `GenerateParabolic`: what is sent on `plotCoords`, closed on return by the
deferred `close`; `none` when allocating `points` panics (negative count). -/
def GenerateParabolic {F : Type} (ops : Float64Arith F) (setup : Parabolic F) :
    Option (SentOf F) :=
  let edgeCountInt := ops.toInt setup.PolygonEdgeCount
  let linesCount := ops.toInt setup.Lines
  if edgeCountInt < 0 then none
  else
    let points : List (CoordinateOf F) :=
      List.replicate edgeCountInt.toNat (CoordinateOf.origin ops)
    let points := parabolicPointsLoop ops setup edgeCountInt.toNat 0 points
    some { items := parabolicEdgeLoop ops points edgeCountInt linesCount edgeCountInt.toNat 0 []
           closed := true }

/-- Polygon vertex `e` of the parabolic shape as the code computes it:
`(Radius·cos(angle), Radius·sin(angle))` with `angle = (2π / PolygonEdgeCount)·e`,
every operation in float64. -/
def polygonVertex {F : Type} (ops : Float64Arith F) (setup : Parabolic F) (e : Nat) :
    CoordinateOf F :=
  { X := ops.mul setup.Radius
      (ops.cos (ops.mul (ops.div ops.twoPi setup.PolygonEdgeCount) (ops.ofInt (e : Int))))
    Y := ops.mul setup.Radius
      (ops.sin (ops.mul (ops.div ops.twoPi setup.PolygonEdgeCount) (ops.ofInt (e : Int)))) }

/-- The two end points of line `i` of edge `e` with `c` edges and `l` lines:
`((0,0) - V_e)·(i/l) + V_e` and `(V_((e+1) mod c) - (0,0))·((i+1)/l) + (0,0)`,
every operation in float64 (in exact arithmetic `(1 - i/l)·V_e` and
`((i+1)/l)·V_((e+1) mod c)`); the first one first when `i` is even, the second
one first when `i` is odd. -/
def parabolicLine {F : Type} (ops : Float64Arith F) (setup : Parabolic F) (c l : Nat)
    (e i : Nat) : List (CoordinateOf F) :=
  let s := CoordinateOf.Add ops
    (CoordinateOf.Scaled ops
      (CoordinateOf.Minus ops (CoordinateOf.origin ops) (polygonVertex ops setup e))
      (ops.div (ops.ofInt (i : Int)) (ops.ofInt (l : Int))))
    (polygonVertex ops setup e)
  let t := CoordinateOf.Add ops
    (CoordinateOf.Scaled ops
      (CoordinateOf.Minus ops (polygonVertex ops setup ((e + 1) % c)) (CoordinateOf.origin ops))
      (ops.div (ops.ofInt ((i : Int) + 1)) (ops.ofInt (l : Int))))
    (CoordinateOf.origin ops)
  if i % 2 = 0 then [s, t] else [t, s]

/-- The points of edge `e`: its `l` lines in order, then the point `(0,0)`. -/
def parabolicEdge {F : Type} (ops : Float64Arith F) (setup : Parabolic F) (c l : Nat)
    (e : Nat) : List (CoordinateOf F) :=
  (List.range l).flatMap (parabolicLine ops setup c l e) ++ [CoordinateOf.origin ops]

/-- The two points one iteration of the inner loop of `GenerateParabolic`
sends for `lineIndex = j`. -/
def parabolicLineCoords {F : Type} (ops : Float64Arith F)
    (sourceBegin sourceEnd destBegin destEnd : CoordinateOf F) (linesCount : Int) (j : Nat) :
    List (CoordinateOf F) :=
  let start := CoordinateOf.Add ops
    (CoordinateOf.Scaled ops (CoordinateOf.Minus ops sourceEnd sourceBegin)
      (ops.div (ops.ofInt (j : Int)) (ops.ofInt linesCount)))
    sourceBegin
  let endCoord := CoordinateOf.Add ops
    (CoordinateOf.Scaled ops (CoordinateOf.Minus ops destEnd destBegin)
      (ops.div (ops.ofInt ((j : Int) + 1)) (ops.ofInt linesCount)))
    destBegin
  if j % 2 = 0 then [start, endCoord] else [endCoord, start]

/-- The points one iteration of the second outer loop of `GenerateParabolic`
sends for `edge = e`. -/
def parabolicEdgeCoords {F : Type} (ops : Float64Arith F) (points : List (CoordinateOf F))
    (edgeCountInt linesCount : Int) (e : Nat) : List (CoordinateOf F) :=
  (List.range linesCount.toNat).flatMap
    (parabolicLineCoords ops (points.getD e (CoordinateOf.origin ops))
      { X := ops.zero, Y := ops.zero } { X := ops.zero, Y := ops.zero }
      (points.getD (Int.tmod ((e : Int) + 1) edgeCountInt).toNat (CoordinateOf.origin ops))
      linesCount)
    ++ [{ X := ops.zero, Y := ops.zero }]

/-- Exact real arithmetic as a carrier of float64 values: the idealisation in
which no operation rounds; `int(f)` truncates toward zero. -/
noncomputable def realArith : Float64Arith ℝ :=
  { zero := 0
    twoPi := 2.0 * Real.pi
    add := fun a b => a + b
    sub := fun a b => a - b
    mul := fun a b => a * b
    div := fun a b => a / b
    cos := Real.cos
    sin := Real.sin
    ofInt := fun i => (i : ℝ)
    toInt := fun f => if 0 ≤ f then ⌊f⌋ else ⌈f⌉ }

/-! # Theorems -/

/-! ## Theorems: CoordinateRingBuffer -/

theorem getD_set_ne (l : List Coordinate) (i j : Nat) (c : Coordinate) (h : i ≠ j) :
    (l.set i c).getD j default = l.getD j default := by
  simp [List.getD_eq_getElem?_getD, List.getElem?_set_ne h]

theorem getD_set_eq (l : List Coordinate) (i : Nat) (c : Coordinate) (h : i < l.length) :
    (l.set i c).getD i default = c := by
  simp [List.getD_eq_getElem?_getD, h]

theorem mod_add_ne (cap s i n : Nat) (hi : i < n) (hn : n < cap) :
    (s + n) % cap ≠ (s + i) % cap := by
  intro h
  have h1 : Nat.ModEq cap (s + n) (s + i) := h
  have h2 : Nat.ModEq cap n i := Nat.ModEq.add_left_cancel' s h1
  have h3 : n % cap = i % cap := h2
  rw [Nat.mod_eq_of_lt hn, Nat.mod_eq_of_lt (lt_trans hi hn)] at h3
  omega

theorem contents_Enqueue (b : CoordinateRingBuffer) (c : Coordinate)
    (hlt : b.length < b.data.length) :
    (b.Enqueue c).contents = b.contents ++ [c] := by
  unfold CoordinateRingBuffer.contents CoordinateRingBuffer.Enqueue
  simp only [List.length_set, List.range_succ, List.map_append, List.map_cons, List.map_nil]
  congr 1
  · apply List.map_congr_left
    intro i hi
    rw [List.mem_range] at hi
    exact getD_set_ne _ _ _ _ (mod_add_ne _ _ _ _ hi hlt)
  · rw [getD_set_eq]
    exact Nat.mod_lt _ (by omega)

theorem contents_Dequeue (b : CoordinateRingBuffer) (hwf : b.WF) (hpos : 0 < b.length) :
    b.contents = b.Dequeue.1 :: b.Dequeue.2.contents := by
  unfold CoordinateRingBuffer.contents CoordinateRingBuffer.Dequeue
  obtain ⟨n, hn⟩ : ∃ n, b.length = n + 1 := ⟨b.length - 1, by omega⟩
  simp only [hn, Nat.add_sub_cancel, List.range_succ_eq_map, List.map_cons, List.map_map,
    Nat.add_zero, Nat.mod_eq_of_lt hwf.start_lt]
  congr 1
  apply List.map_congr_left
  intro i _
  simp only [Function.comp, Nat.mod_add_mod]
  congr 2
  omega

theorem WF_New (n : Nat) (h : 1 ≤ n) : (NewCoordinateRingBuffer n).WF := by
  constructor
  · simp only [NewCoordinateRingBuffer, List.length_replicate]; omega
  · simp [NewCoordinateRingBuffer]

theorem WF_Enqueue (b : CoordinateRingBuffer) (c : Coordinate) (hwf : b.WF)
    (hlt : b.length < b.data.length) : (b.Enqueue c).WF := by
  constructor
  · simpa [CoordinateRingBuffer.Enqueue] using hwf.start_lt
  · simp only [CoordinateRingBuffer.Enqueue, List.length_set]; omega

theorem WF_Dequeue (b : CoordinateRingBuffer) (hwf : b.WF) : b.Dequeue.2.WF := by
  have := hwf.start_lt
  have := hwf.length_le
  constructor
  · simp only [CoordinateRingBuffer.Dequeue]
    exact Nat.mod_lt _ (by omega)
  · simp only [CoordinateRingBuffer.Dequeue]; omega

theorem length_contents (b : CoordinateRingBuffer) : b.contents.length = b.length := by
  simp [CoordinateRingBuffer.contents]

/-- Refinement of the circular buffer by a list queue, along any contract-respecting run. -/
theorem runOps_refines (ops : List BufOp) : ∀ (b : CoordinateRingBuffer), b.WF →
    Contract b.data.length b.length ops →
    (runOps ops b).1 ++ (runOps ops b).2.contents = b.contents ++ enqueued ops ∧
    (runOps ops b).1.length = dequeueCount ops ∧
    (runOps ops b).2.Cap = b.Cap ∧
    (runOps ops b).2.WF := by
  induction ops with
  | nil => intro b hwf _; simp [runOps, enqueued, dequeueCount, hwf]
  | cons op ops ih =>
    intro b hwf hc
    cases op with
    | enq c =>
      obtain ⟨hlt, hc⟩ := hc
      have hc2 : Contract (b.Enqueue c).data.length (b.Enqueue c).length ops := by
        simpa [CoordinateRingBuffer.Enqueue] using hc
      obtain ⟨h1, h2, h3, h4⟩ := ih (b.Enqueue c) (WF_Enqueue b c hwf hlt) hc2
      refine ⟨?_, ?_, ?_, h4⟩
      · simp only [runOps, enqueued]
        rw [h1, contents_Enqueue b c hlt]; simp
      · simpa [runOps, dequeueCount] using h2
      · simp only [runOps]; rw [h3]; simp [CoordinateRingBuffer.Cap, CoordinateRingBuffer.Enqueue]
    | deq =>
      obtain ⟨hpos, hc⟩ := hc
      have hc2 : Contract b.Dequeue.2.data.length b.Dequeue.2.length ops := by
        simpa [CoordinateRingBuffer.Dequeue] using hc
      obtain ⟨h1, h2, h3, h4⟩ := ih b.Dequeue.2 (WF_Dequeue b hwf) hc2
      refine ⟨?_, ?_, ?_, h4⟩
      · simp only [runOps, enqueued, List.cons_append]
        rw [h1, contents_Dequeue b hwf hpos]; simp
      · simpa [runOps, dequeueCount] using h2
      · simp only [runOps]; rw [h3]; simp [CoordinateRingBuffer.Cap, CoordinateRingBuffer.Dequeue]

/-- C1: for every capacity `N ≥ 1` and every operation sequence on
`NewCoordinateRingBuffer N` that respects the contract (never enqueue on a full
buffer, never dequeue on an empty one), the dequeued values are the enqueued
values in enqueue order (the first `dequeueCount` of them), `Len` equals the
number of enqueues minus the number of dequeues, and `Cap` stays `N`.  The
sequence is arbitrary, so this covers filling to capacity, draining and reuse. -/
theorem C1_ring_buffer_fifo (N : Nat) (hN : 1 ≤ N) (ops : List BufOp)
    (hc : Contract N 0 ops) :
    (runOps ops (NewCoordinateRingBuffer N)).1 = (enqueued ops).take (dequeueCount ops) ∧
    (runOps ops (NewCoordinateRingBuffer N)).2.Len =
      (enqueued ops).length - dequeueCount ops ∧
    dequeueCount ops ≤ (enqueued ops).length ∧
    (runOps ops (NewCoordinateRingBuffer N)).2.Cap = N := by
  have hc2 : Contract (NewCoordinateRingBuffer N).data.length
      (NewCoordinateRingBuffer N).length ops := by
    simpa [NewCoordinateRingBuffer] using hc
  obtain ⟨h1, h2, h3, _⟩ := runOps_refines ops _ (WF_New N hN) hc2
  have h0 : (NewCoordinateRingBuffer N).contents = [] := by
    simp [CoordinateRingBuffer.contents, NewCoordinateRingBuffer]
  rw [h0, List.nil_append] at h1
  have hlen := congrArg List.length h1
  rw [List.length_append, h2, length_contents] at hlen
  refine ⟨?_, ?_, ?_, ?_⟩
  · rw [← h1, ← h2, List.take_left]
  · simp only [CoordinateRingBuffer.Len]; omega
  · omega
  · rw [h3]; simp [CoordinateRingBuffer.Cap, NewCoordinateRingBuffer]

/-- C1 (witness): the scenario of `TestCoordinateRingBuffer` respects the contract. -/
theorem C1_ring_buffer_fifo_witness :
    1 ≤ 4 ∧ Contract 4 0 testOps ∧
    (runOps testOps (NewCoordinateRingBuffer 4)).1 =
      (enqueued testOps).take (dequeueCount testOps) ∧
    (runOps testOps (NewCoordinateRingBuffer 4)).2.Len =
      (enqueued testOps).length - dequeueCount testOps ∧
    dequeueCount testOps ≤ (enqueued testOps).length ∧
    (runOps testOps (NewCoordinateRingBuffer 4)).2.Cap = 4 :=
  ⟨by decide, by decide, C1_ring_buffer_fifo 4 (by decide) testOps (by decide)⟩

/-! ## Theorems: polar transform -/

theorem sq_left (p : RealPoint) (D : ℝ) :
    (cartesian_to_polar p D).left ^ 2 = (p.x + D / 2) ^ 2 + p.y ^ 2 := by
  unfold cartesian_to_polar
  simp only
  rw [Real.sq_sqrt (by positivity)]
  ring

theorem sq_right (p : RealPoint) (D : ℝ) :
    (cartesian_to_polar p D).right ^ 2 = (p.x - D / 2) ^ 2 + p.y ^ 2 := by
  unfold cartesian_to_polar
  simp only
  rw [Real.sq_sqrt (by positivity)]
  ring

theorem roundtrip_x (p : RealPoint) (D : ℝ) (hD : 0 < D) :
    ((cartesian_to_polar p D).left ^ 2 - (cartesian_to_polar p D).right ^ 2 + D ^ 2) / (2 * D)
      = p.x + D / 2 := by
  rw [sq_left, sq_right]
  field_simp
  ring

/-- The round trip through the two transforms, in closed form. -/
theorem roundtrip_eq (p : RealPoint) (D : ℝ) (hD : 0 < D) :
    polar_to_cartesian (cartesian_to_polar p D) D =
      if p.y ^ 2 - D * p.x - 3 * D ^ 2 / 4 < 0 then none
      else some { x := p.x + D / 2, y := Real.sqrt (p.y ^ 2 - D * p.x - 3 * D ^ 2 / 4) } := by
  have hr : (cartesian_to_polar p D).left ^ 2 - (p.x + D / 2 + D / 2) ^ 2 =
      p.y ^ 2 - D * p.x - 3 * D ^ 2 / 4 := by
    rw [sq_left]; ring
  unfold polar_to_cartesian
  simp only [roundtrip_x p D hD, hr]

/-- C2 (as amended): over exact real arithmetic, for every anchor separation
`D > 0` and every point `p`, applying `polar_to_cartesian` to
`cartesian_to_polar p` fails with a `GeometryError` when
`p.y² < D·p.x + 3D²/4` (negative radicand) and otherwise returns the point with
abscissa `p.x + D/2` (the abscissa measured from the left anchor) and ordinate
`sqrt(p.y² - D·p.x - 3D²/4)`; it never returns `p` itself. -/
theorem C2_roundtrip_shifted (p : RealPoint) (D : ℝ) (hD : 0 < D) :
    (polar_to_cartesian (cartesian_to_polar p D) D =
      if p.y ^ 2 - D * p.x - 3 * D ^ 2 / 4 < 0 then none
      else some { x := p.x + D / 2, y := Real.sqrt (p.y ^ 2 - D * p.x - 3 * D ^ 2 / 4) }) ∧
    polar_to_cartesian (cartesian_to_polar p D) D ≠ some p := by
  refine ⟨roundtrip_eq p D hD, ?_⟩
  rw [roundtrip_eq p D hD]
  split
  · simp
  · intro h
    rw [Option.some.injEq] at h
    have hx := congrArg RealPoint.x h
    simp only at hx
    linarith

/-- C2 (witness): the amended statement at `D = 2`, `p = (0, 2)` (the pen
hanging below the midpoint of the anchors), where the radicand is 1 and the
round trip returns `(1, 1)`. -/
theorem C2_roundtrip_shifted_witness :
    (0 : ℝ) < 2 ∧
    polar_to_cartesian (cartesian_to_polar ⟨0, 2⟩ 2) 2 = some ⟨1, 1⟩ ∧
    polar_to_cartesian (cartesian_to_polar ⟨0, 2⟩ 2) 2 ≠ some ⟨0, 2⟩ := by
  have h := C2_roundtrip_shifted ⟨0, 2⟩ 2 (by norm_num)
  refine ⟨by norm_num, ?_, h.2⟩
  rw [h.1]
  norm_num

/-- C2 (counterexample): with `D = 2` and `p = (0, 2)` (so `D > 0`, `y ≥ 0`) the
round trip through `cartesian_to_polar` and `polar_to_cartesian` returns
`(1, 1)`, which is not `p`. -/
theorem C2_roundtrip_counterexample :
    (0 : ℝ) < 2 ∧ (0 : ℝ) ≤ (⟨0, 2⟩ : RealPoint).y ∧
    polar_to_cartesian (cartesian_to_polar ⟨0, 2⟩ 2) 2 = some ⟨1, 1⟩ ∧
    polar_to_cartesian (cartesian_to_polar ⟨0, 2⟩ 2) 2 ≠ some ⟨0, 2⟩ := by
  have h : polar_to_cartesian (cartesian_to_polar ⟨0, 2⟩ 2) 2 = some ⟨1, 1⟩ := by
    rw [roundtrip_eq ⟨0, 2⟩ 2 (by norm_num)]
    norm_num
  refine ⟨by norm_num, by norm_num, h, ?_⟩
  rw [h]
  intro hc
  rw [Option.some.injEq] at hc
  have hx := congrArg RealPoint.x hc
  norm_num at hx

/-! ## Theorems: the `setup` command -/

/-- What the loop of `GetArgsAsFloats` over `F` guarantees on a normal return. -/
theorem parseLoopIn_ok {F : Type} (ops : Float64Ops F) (ParseFloat : String → Option F)
    (args : List String) :
    ∀ (remaining argIndex : Nat) (numbers result : List F),
      argIndex + remaining ≤ numbers.length →
      parseLoopIn ops ParseFloat args remaining argIndex numbers = Except.ok result →
      result.length = numbers.length ∧
      (∀ i, i < argIndex → result[i]? = numbers[i]?) ∧
      (∀ i, argIndex ≤ i → i < argIndex + remaining →
        ∃ arg v, args[i]? = some arg ∧ ParseFloat arg = some v ∧ ops.isZero v = false ∧
          result[i]? = some v) := by
  intro remaining
  induction remaining with
  | zero =>
    intro argIndex numbers result _ h
    simp only [parseLoopIn, Except.ok.injEq] at h
    subst h
    exact ⟨rfl, fun _ _ => rfl, fun i h1 h2 => by omega⟩
  | succ r ih =>
    intro argIndex numbers result hlen h
    rw [parseLoopIn] at h
    cases harg : args[argIndex]? with
    | none => simp [harg] at h
    | some arg =>
      cases hp : ParseFloat arg with
      | none => simp [harg, hp] at h
      | some v =>
        simp only [harg, hp] at h
        have hidx : argIndex < numbers.length := by omega
        have hget : (numbers.set argIndex v).getD argIndex ops.zero = v := by
          simp [List.getD_eq_getElem?_getD, hidx]
        rw [hget] at h
        cases hv : ops.isZero v with
        | true => simp [hv] at h
        | false =>
          simp only [hv, Bool.false_eq_true, if_false] at h
          have hlen2 : argIndex + 1 + r ≤ (numbers.set argIndex v).length := by
            simp only [List.length_set]; omega
          obtain ⟨h1, h2, h3⟩ := ih (argIndex + 1) (numbers.set argIndex v) result hlen2 h
          refine ⟨by simpa using h1, ?_, ?_⟩
          · intro i hi
            rw [h2 i (by omega)]
            simp [List.getElem?_set_ne (show argIndex ≠ i by omega)]
          · intro i hi1 hi2
            by_cases hi : i = argIndex
            · subst hi
              refine ⟨arg, v, harg, hp, hv, ?_⟩
              rw [h2 i (by omega)]
              simp [hidx]
            · exact h3 i (by omega) (by omega)

/-- A normal return of `GetArgsAsFloats("setup", _, 3)` is a slice of three
nonzero values, each parsed from the argument of its index. -/
theorem GetArgsAsFloatsIn_three {F : Type} (ops : Float64Ops F)
    (ParseFloat : String → Option F) (command : String) (args : List String)
    (params : List F)
    (h : GetArgsAsFloatsIn ops ParseFloat command args 3 = Except.ok params) :
    ∃ D L R, params = [D, L, R] ∧
      ops.isZero D = false ∧ ops.isZero L = false ∧ ops.isZero R = false ∧
      (∃ a0 a1 a2, args[0]? = some a0 ∧ args[1]? = some a1 ∧ args[2]? = some a2 ∧
        ParseFloat a0 = some D ∧ ParseFloat a1 = some L ∧ ParseFloat a2 = some R) := by
  unfold GetArgsAsFloatsIn at h
  by_cases h1 : (args.length : Int) < 3
  · simp [h1] at h
  · simp only [h1, if_false, show ¬ ((3 : Int) < 0) by decide] at h
    have e3 : (3 : Int).toNat = 3 := rfl
    rw [e3] at h
    obtain ⟨hl, _, h3⟩ := parseLoopIn_ok ops ParseFloat args 3 0 _ params (by simp) h
    simp only [List.length_replicate] at hl
    obtain ⟨a0, D, ha0, hp0, hz0, hr0⟩ := h3 0 (by omega) (by omega)
    obtain ⟨a1, L, ha1, hp1, hz1, hr1⟩ := h3 1 (by omega) (by omega)
    obtain ⟨a2, R, ha2, hp2, hz2, hr2⟩ := h3 2 (by omega) (by omega)
    refine ⟨D, L, R, ?_, hz0, hz1, hz2, a0, a1, a2, ha0, ha1, ha2, hp0, hp1, hp2⟩
    match params, hl, hr0, hr1, hr2 with
    | [x, y, z], _, hr0, hr1, hr2 =>
      simp only [List.getElem?_cons_zero, List.getElem?_cons_succ, Option.some.injEq]
        at hr0 hr1 hr2
      rw [hr0, hr1, hr2]

theorem setup_of_error {F PS : Type} (ops : Float64Ops F) (env : SetupEnv F PS)
    (ParseFloat : String → Option F) (S : SettingsData F) (args : List String) (p : Panic)
    (h : GetArgsAsFloatsIn ops ParseFloat "setup" (args.drop 1) 3 = Except.error p) :
    setup ops env ParseFloat S args = [SetupEvent.panic p] := by
  unfold setup
  rw [h]

theorem setup_of_gt {F PS : Type} (ops : Float64Ops F) (env : SetupEnv F PS)
    (ParseFloat : String → Option F) (S : SettingsData F) (args : List String) (D L R : F)
    (h : GetArgsAsFloatsIn ops ParseFloat "setup" (args.drop 1) 3 = Except.ok [D, L, R])
    (hgt : ops.gt D (ops.add L R) = true) :
    setup ops env ParseFloat S args = [SetupEvent.errorIdlers] := by
  unfold setup
  rw [h]
  simp only [hgt, if_true]

theorem setup_of_none {F PS : Type} (ops : Float64Ops F) (env : SetupEnv F PS)
    (ParseFloat : String → Option F) (S : SettingsData F) (args : List String) (D L R : F)
    (h : GetArgsAsFloatsIn ops ParseFloat "setup" (args.drop 1) 3 = Except.ok [D, L, R])
    (hgt : ops.gt D (ops.add L R) = false)
    (hc : env.ToCoord (setupPolarPos env S D L R)
      (env.PolarSystemFromSettings (setupSettings env S D L R)) = none) :
    setup ops env ParseFloat S args = [SetupEvent.callToCoord (setupPolarPos env S D L R)
      (env.PolarSystemFromSettings (setupSettings env S D L R))] := by
  unfold setupPolarPos setupSettings at *
  unfold setup
  rw [h]
  simp only [hgt, Bool.false_eq_true, if_false, hc]

/-- The test of `setup` on the pen position: some coordinate lies outside the
drawing surface. -/
theorem setup_of_out {F PS : Type} (ops : Float64Ops F) (env : SetupEnv F PS)
    (ParseFloat : String → Option F) (S : SettingsData F) (args : List String) (D L R : F)
    (h : GetArgsAsFloatsIn ops ParseFloat "setup" (args.drop 1) 3 = Except.ok [D, L, R])
    (hgt : ops.gt D (ops.add L R) = false) (pos : CoordinateOf F)
    (hc : env.ToCoord (setupPolarPos env S D L R)
      (env.PolarSystemFromSettings (setupSettings env S D L R)) = some pos)
    (hout : (ops.lt pos.X (setupSettings env S D L R).DrawingSurfaceMinX_MM ||
        ops.gt pos.X (setupSettings env S D L R).DrawingSurfaceMaxX_MM ||
        ops.lt pos.Y (setupSettings env S D L R).DrawingSurfaceMinY_MM ||
        ops.gt pos.Y (setupSettings env S D L R).DrawingSurfaceMaxY_MM) = true) :
    setup ops env ParseFloat S args = [SetupEvent.callToCoord (setupPolarPos env S D L R)
      (env.PolarSystemFromSettings (setupSettings env S D L R)), SetupEvent.errorBounds pos] := by
  unfold setupPolarPos setupSettings at *
  unfold setup
  rw [h]
  simp only [hgt, Bool.false_eq_true, if_false, hc, hout, if_true]

theorem setup_of_in {F PS : Type} (ops : Float64Ops F) (env : SetupEnv F PS)
    (ParseFloat : String → Option F) (S : SettingsData F) (args : List String) (D L R : F)
    (h : GetArgsAsFloatsIn ops ParseFloat "setup" (args.drop 1) 3 = Except.ok [D, L, R])
    (hgt : ops.gt D (ops.add L R) = false) (pos : CoordinateOf F)
    (hc : env.ToCoord (setupPolarPos env S D L R)
      (env.PolarSystemFromSettings (setupSettings env S D L R)) = some pos)
    (hin : (ops.lt pos.X (setupSettings env S D L R).DrawingSurfaceMinX_MM ||
        ops.gt pos.X (setupSettings env S D L R).DrawingSurfaceMaxX_MM ||
        ops.lt pos.Y (setupSettings env S D L R).DrawingSurfaceMinY_MM ||
        ops.gt pos.Y (setupSettings env S D L R).DrawingSurfaceMaxY_MM) = false) :
    setup ops env ParseFloat S args = [SetupEvent.callToCoord (setupPolarPos env S D L R)
      (env.PolarSystemFromSettings (setupSettings env S D L R)),
      SetupEvent.reportPosition pos, SetupEvent.settingsWrite (setupSettings env S D L R)] := by
  unfold setupPolarPos setupSettings at *
  unfold setup
  rw [h]
  simp only [hgt, Bool.false_eq_true, if_false, hc, hin]

/-- For comparable values the bounds test of `setup` fails exactly when the
position is within the bounds. -/
theorem outOfBounds_false_iff {F : Type} (ops : Float64Ops F) (s : SettingsData F)
    (pos : CoordinateOf F) (hb : BoundsComparable ops s pos) :
    (ops.lt pos.X s.DrawingSurfaceMinX_MM || ops.gt pos.X s.DrawingSurfaceMaxX_MM ||
      ops.lt pos.Y s.DrawingSurfaceMinY_MM || ops.gt pos.Y s.DrawingSurfaceMaxY_MM) = false ↔
    InBounds ops s pos := by
  obtain ⟨⟨_, h1⟩, ⟨h2, _⟩, ⟨_, h3⟩, ⟨h4, _⟩⟩ := hb
  unfold InBounds
  rw [h1, h2, h3, h4]
  cases ops.lt pos.X s.DrawingSurfaceMinX_MM <;> cases ops.gt pos.X s.DrawingSurfaceMaxX_MM <;>
    cases ops.lt pos.Y s.DrawingSurfaceMinY_MM <;> cases ops.gt pos.Y s.DrawingSurfaceMaxY_MM <;>
    simp

/-- C3 (as amended): in the `setup` command, a missing, unparsable or zero
argument makes `GetArgsAsFloats` panic before anything else happens.  When it
returns `D`, `L`, `R` (all nonzero): if `D > L + R` the command only reports
the error, without calling the polar transform and without persisting any
settings; and when the values compared are not NaN (comparable),
`Settings.Write()` is called if and only if `D ≤ L + R` and the pen position
returned by `ToCoord` for `(L, R)` satisfies `MinX ≤ X ≤ MaxX` and
`MinY ≤ Y ≤ MaxY` of the drawing surface. -/
theorem C3_setup_write_iff {F PS : Type} (ops : Float64Ops F) (env : SetupEnv F PS)
    (ParseFloat : String → Option F) (S : SettingsData F) (args : List String) :
    (∀ p, GetArgsAsFloatsIn ops ParseFloat "setup" (args.drop 1) 3 = Except.error p →
      setup ops env ParseFloat S args = [SetupEvent.panic p]) ∧
    (∀ params, GetArgsAsFloatsIn ops ParseFloat "setup" (args.drop 1) 3 = Except.ok params →
      ∃ D L R, params = [D, L, R] ∧
        ops.isZero D = false ∧ ops.isZero L = false ∧ ops.isZero R = false ∧
        (ops.gt D (ops.add L R) = true →
          setup ops env ParseFloat S args = [SetupEvent.errorIdlers]) ∧
        (Comparable ops D (ops.add L R) →
          (∀ pos, env.ToCoord (setupPolarPos env S D L R)
              (env.PolarSystemFromSettings (setupSettings env S D L R)) = some pos →
            BoundsComparable ops (setupSettings env S D L R) pos) →
          ((∃ e ∈ setup ops env ParseFloat S args, e.isWrite = true) ↔
            ops.le D (ops.add L R) = true ∧
            ∃ pos, env.ToCoord (setupPolarPos env S D L R)
                (env.PolarSystemFromSettings (setupSettings env S D L R)) = some pos ∧
              InBounds ops (setupSettings env S D L R) pos))) := by
  refine ⟨fun p h => setup_of_error ops env ParseFloat S args p h, ?_⟩
  intro params hparams
  obtain ⟨D, L, R, rfl, hz0, hz1, hz2, _⟩ :=
    GetArgsAsFloatsIn_three ops ParseFloat "setup" (args.drop 1) params hparams
  refine ⟨D, L, R, rfl, hz0, hz1, hz2,
    fun hgt => setup_of_gt ops env ParseFloat S args D L R hparams hgt, ?_⟩
  intro hD hpos
  cases hgt : ops.gt D (ops.add L R) with
  | true =>
    rw [setup_of_gt ops env ParseFloat S args D L R hparams hgt, hD.1, hgt]
    simp [SetupEvent.isWrite]
  | false =>
    have hle : ops.le D (ops.add L R) = true := by rw [hD.1, hgt]; rfl
    cases hc : env.ToCoord (setupPolarPos env S D L R)
        (env.PolarSystemFromSettings (setupSettings env S D L R)) with
    | none =>
      rw [setup_of_none ops env ParseFloat S args D L R hparams hgt hc]
      simp [SetupEvent.isWrite]
    | some pos =>
      have hb := hpos pos hc
      cases hout : (ops.lt pos.X (setupSettings env S D L R).DrawingSurfaceMinX_MM ||
          ops.gt pos.X (setupSettings env S D L R).DrawingSurfaceMaxX_MM ||
          ops.lt pos.Y (setupSettings env S D L R).DrawingSurfaceMinY_MM ||
          ops.gt pos.Y (setupSettings env S D L R).DrawingSurfaceMaxY_MM) with
      | true =>
        rw [setup_of_out ops env ParseFloat S args D L R hparams hgt pos hc hout]
        constructor
        · rintro ⟨e, he, hw⟩
          simp only [List.mem_cons, List.mem_singleton, List.not_mem_nil, or_false] at he
          rcases he with he | he <;> simp [he, SetupEvent.isWrite] at hw
        · rintro ⟨_, pos', hpos', hin⟩
          cases hpos'
          have := (outOfBounds_false_iff ops _ pos hb).mpr hin
          rw [hout] at this
          cases this
      | false =>
        rw [setup_of_in ops env ParseFloat S args D L R hparams hgt pos hc hout]
        constructor
        · intro _
          exact ⟨hle, pos, rfl, (outOfBounds_false_iff ops _ pos hb).mp hout⟩
        · intro _
          exact ⟨SetupEvent.settingsWrite (setupSettings env S D L R), by simp, rfl⟩

/-- C4 (as amended): in the `setup` command, a missing, unparsable or zero
argument makes `GetArgsAsFloats` panic before anything else happens.  When it
returns `D`, `L`, `R`: if `D > L + R` the triple is rejected with the
idler-distance error before the transform is called; and when `D` and `L + R`
are not NaN (comparable), `ToCoord` is requested if and only if `D ≤ L + R`.
The other two triangle inequalities are not examined. -/
theorem C4_setup_toCoord_iff {F PS : Type} (ops : Float64Ops F) (env : SetupEnv F PS)
    (ParseFloat : String → Option F) (S : SettingsData F) (args : List String) :
    (∀ p, GetArgsAsFloatsIn ops ParseFloat "setup" (args.drop 1) 3 = Except.error p →
      ∀ e ∈ setup ops env ParseFloat S args, e.isToCoord = false) ∧
    (∀ params, GetArgsAsFloatsIn ops ParseFloat "setup" (args.drop 1) 3 = Except.ok params →
      ∃ D L R, params = [D, L, R] ∧
        (ops.gt D (ops.add L R) = true →
          setup ops env ParseFloat S args = [SetupEvent.errorIdlers]) ∧
        (Comparable ops D (ops.add L R) →
          ((∃ e ∈ setup ops env ParseFloat S args, e.isToCoord = true) ↔
            ops.le D (ops.add L R) = true) ∧
          ((∃ e ∈ setup ops env ParseFloat S args, e.isErrorIdlers = true) ↔
            ops.le D (ops.add L R) = false))) := by
  constructor
  · intro p h e he
    rw [setup_of_error ops env ParseFloat S args p h, List.mem_singleton] at he
    rw [he]; rfl
  intro params hparams
  obtain ⟨D, L, R, rfl, _⟩ :=
    GetArgsAsFloatsIn_three ops ParseFloat "setup" (args.drop 1) params hparams
  refine ⟨D, L, R, rfl,
    fun hgt => setup_of_gt ops env ParseFloat S args D L R hparams hgt, ?_⟩
  intro hD
  cases hgt : ops.gt D (ops.add L R) with
  | true =>
    rw [setup_of_gt ops env ParseFloat S args D L R hparams hgt, hD.1, hgt]
    simp [SetupEvent.isToCoord, SetupEvent.isErrorIdlers]
  | false =>
    have hle : ops.le D (ops.add L R) = true := by rw [hD.1, hgt]; rfl
    cases hc : env.ToCoord (setupPolarPos env S D L R)
        (env.PolarSystemFromSettings (setupSettings env S D L R)) with
    | none =>
      rw [setup_of_none ops env ParseFloat S args D L R hparams hgt hc]
      simp [SetupEvent.isToCoord, SetupEvent.isErrorIdlers, hle]
    | some pos =>
      cases hout : (ops.lt pos.X (setupSettings env S D L R).DrawingSurfaceMinX_MM ||
          ops.gt pos.X (setupSettings env S D L R).DrawingSurfaceMaxX_MM ||
          ops.lt pos.Y (setupSettings env S D L R).DrawingSurfaceMinY_MM ||
          ops.gt pos.Y (setupSettings env S D L R).DrawingSurfaceMaxY_MM) with
      | true =>
        rw [setup_of_out ops env ParseFloat S args D L R hparams hgt pos hc hout]
        simp [SetupEvent.isToCoord, SetupEvent.isErrorIdlers, hle]
      | false =>
        rw [setup_of_in ops env ParseFloat S args D L R hparams hgt pos hc hout]
        simp [SetupEvent.isToCoord, SetupEvent.isErrorIdlers, hle]

theorem sampleArgs_ok (a b c : String) (D L R : ℚ)
    (ha : sampleParseFloat a = some (some D)) (hb : sampleParseFloat b = some (some L))
    (hc : sampleParseFloat c = some (some R))
    (hD : D ≠ 0) (hL : L ≠ 0) (hR : R ≠ 0) :
    GetArgsAsFloatsIn sampleOps sampleParseFloat "setup" (["setup", a, b, c].drop 1) 3 =
      Except.ok [some D, some L, some R] := by
  simp [GetArgsAsFloatsIn, parseLoopIn, ha, hb, hc, sampleOps, hD, hL, hR]

theorem sampleArgs_nan :
    GetArgsAsFloatsIn sampleOps sampleParseFloat "setup" (["setup", "NaN", "1", "1"].drop 1) 3 =
      Except.ok [none, some 1, some 1] := by
  simp [GetArgsAsFloatsIn, parseLoopIn, sampleParseFloat, sampleOps]

theorem sampleArgs_zero :
    GetArgsAsFloatsIn sampleOps sampleParseFloat "setup" (["setup", "1", "0", "1"].drop 1) 3 =
      Except.error (Panic.zeroValue 1) := by
  simp [GetArgsAsFloatsIn, parseLoopIn, sampleParseFloat, sampleOps]

theorem sample_setup_1000 :
    setup sampleOps sampleEnv sampleParseFloat sampleSettings ["setup", "1000", "1000", "1000"] =
      [SetupEvent.callToCoord ⟨some 1000, some 1000⟩ (some 1000),
       SetupEvent.reportPosition ⟨some 500, some 0, false⟩,
       SetupEvent.settingsWrite { sampleSettings with
         SpoolHorizontalDistance_MM := some 1000, StartingLeftDist_MM := some 1000,
         StartingRightDist_MM := some 1000 }] := by
  have h := sampleArgs_ok "1000" "1000" "1000" 1000 1000 1000 rfl rfl rfl
    (by norm_num) (by norm_num) (by norm_num)
  rw [setup_of_in sampleOps sampleEnv sampleParseFloat sampleSettings _ _ _ _ h
    (by norm_num [sampleOps]) ⟨some 500, some 0, false⟩]
  · rfl
  · norm_num [sampleEnv, setupSettings, setupPolarPos]
  · norm_num [sampleOps, sampleEnv, sampleSettings, setupSettings]

theorem sample_setup_3000 :
    setup sampleOps sampleEnv sampleParseFloat sampleSettings ["setup", "3000", "1000", "1000"] =
      [SetupEvent.errorIdlers] := by
  have h := sampleArgs_ok "3000" "1000" "1000" 3000 1000 1000 rfl rfl rfl
    (by norm_num) (by norm_num) (by norm_num)
  exact setup_of_gt sampleOps sampleEnv sampleParseFloat sampleSettings _ _ _ _ h
    (by norm_num [sampleOps])

theorem sample_setup_1_5_1 :
    setup sampleOps sampleEnv sampleParseFloat sampleSettings ["setup", "1", "5", "1"] =
      [SetupEvent.callToCoord ⟨some 5, some 1⟩ (some 1),
       SetupEvent.reportPosition ⟨some (25 / 2), some 0, false⟩,
       SetupEvent.settingsWrite { sampleSettings with
         SpoolHorizontalDistance_MM := some 1, StartingLeftDist_MM := some 5,
         StartingRightDist_MM := some 1 }] := by
  have h := sampleArgs_ok "1" "5" "1" 1 5 1 rfl rfl rfl
    (by norm_num) (by norm_num) (by norm_num)
  rw [setup_of_in sampleOps sampleEnv sampleParseFloat sampleSettings _ _ _ _ h
    (by norm_num [sampleOps]) ⟨some (25 / 2), some 0, false⟩]
  · rfl
  · norm_num [sampleEnv, setupSettings, setupPolarPos]
  · norm_num [sampleOps, sampleEnv, sampleSettings, setupSettings]

theorem sample_setup_nan :
    setup sampleOps sampleEnv sampleParseFloat sampleSettings ["setup", "NaN", "1", "1"] =
      [SetupEvent.callToCoord ⟨some 1, some 1⟩ none,
       SetupEvent.reportPosition ⟨none, none, false⟩,
       SetupEvent.settingsWrite { sampleSettings with
         SpoolHorizontalDistance_MM := none, StartingLeftDist_MM := some 1,
         StartingRightDist_MM := some 1 }] := by
  rw [setup_of_in sampleOps sampleEnv sampleParseFloat sampleSettings _ _ _ _ sampleArgs_nan
    (by norm_num [sampleOps]) ⟨none, none, false⟩]
  · rfl
  · norm_num [sampleEnv, setupSettings, setupPolarPos]
  · norm_num [sampleOps]

/-- C3 (witness): `setup 1000 1000 1000` writes the settings by the amended
statement, whose comparability conditions hold there. -/
theorem C3_setup_write_iff_witness :
    ∃ e ∈ setup sampleOps sampleEnv sampleParseFloat sampleSettings
      ["setup", "1000", "1000", "1000"], e.isWrite = true := by
  have hargs := sampleArgs_ok "1000" "1000" "1000" 1000 1000 1000 rfl rfl rfl
    (by norm_num) (by norm_num) (by norm_num)
  obtain ⟨D, L, R, hp, _, _, _, _, hiff⟩ :=
    (C3_setup_write_iff sampleOps sampleEnv sampleParseFloat sampleSettings
      ["setup", "1000", "1000", "1000"]).2 _ hargs
  simp only [List.cons.injEq, and_true] at hp
  obtain ⟨rfl, rfl, rfl⟩ := hp
  refine (hiff ?_ ?_).mpr ⟨?_, ⟨some 500, some 0, false⟩, ?_, ?_⟩
  · norm_num [Comparable, sampleOps]
  · intro pos hpos
    simp only [sampleEnv, setupSettings, setupPolarPos, Option.some.injEq] at hpos
    subst hpos
    norm_num [BoundsComparable, Comparable, sampleOps, sampleEnv, sampleSettings, setupSettings]
  · norm_num [sampleOps]
  · norm_num [sampleEnv, setupSettings, setupPolarPos]
  · norm_num [InBounds, sampleOps, sampleEnv, sampleSettings, setupSettings]

/-- C3 (counterexample): `setup 1 0 1` panics on the zero argument and writes
nothing, although `D ≤ L + R` and the position `ToCoord` gives for `(L, R)` is
within the bounds; and `setup NaN 1 1` writes the settings although
`D ≤ L + R` is false. -/
theorem C3_setup_counterexample :
    (setup sampleOps sampleEnv sampleParseFloat sampleSettings ["setup", "1", "0", "1"] =
        [SetupEvent.panic (Panic.zeroValue 1)] ∧
      sampleOps.le (some 1) (sampleOps.add (some 0) (some 1)) = true ∧
      ∃ pos, sampleEnv.ToCoord (setupPolarPos sampleEnv sampleSettings (some 1) (some 0) (some 1))
          (sampleEnv.PolarSystemFromSettings
            (setupSettings sampleEnv sampleSettings (some 1) (some 0) (some 1))) = some pos ∧
        InBounds sampleOps (setupSettings sampleEnv sampleSettings (some 1) (some 0) (some 1))
          pos) ∧
    ((∃ e ∈ setup sampleOps sampleEnv sampleParseFloat sampleSettings
        ["setup", "NaN", "1", "1"], e.isWrite = true) ∧
      sampleOps.le none (sampleOps.add (some 1) (some 1)) = false) := by
  refine ⟨⟨setup_of_error _ _ _ _ _ _ sampleArgs_zero, ?_, ⟨some 0, some 0, false⟩, ?_, ?_⟩,
    ⟨?_, rfl⟩⟩
  · norm_num [sampleOps]
  · norm_num [sampleEnv, setupSettings, setupPolarPos]
  · norm_num [InBounds, sampleOps, sampleEnv, sampleSettings, setupSettings]
  · rw [sample_setup_nan]
    exact ⟨_, List.mem_cons_of_mem _ (List.mem_cons_of_mem _ (List.mem_cons_self _ _)), rfl⟩

/-- C4 (witness): `setup 1000 1000 1000` requests `ToCoord` by the amended
statement, and `setup 3000 1000 1000` is rejected before the transform. -/
theorem C4_setup_toCoord_iff_witness :
    (∃ e ∈ setup sampleOps sampleEnv sampleParseFloat sampleSettings
      ["setup", "1000", "1000", "1000"], e.isToCoord = true) ∧
    setup sampleOps sampleEnv sampleParseFloat sampleSettings
      ["setup", "3000", "1000", "1000"] = [SetupEvent.errorIdlers] := by
  constructor
  · have hargs := sampleArgs_ok "1000" "1000" "1000" 1000 1000 1000 rfl rfl rfl
      (by norm_num) (by norm_num) (by norm_num)
    obtain ⟨D, L, R, hp, _, hiff⟩ :=
      (C4_setup_toCoord_iff sampleOps sampleEnv sampleParseFloat sampleSettings
        ["setup", "1000", "1000", "1000"]).2 _ hargs
    simp only [List.cons.injEq, and_true] at hp
    obtain ⟨rfl, rfl, rfl⟩ := hp
    refine (hiff ?_).1.mpr ?_
    · norm_num [Comparable, sampleOps]
    · norm_num [sampleOps]
  · have hargs := sampleArgs_ok "3000" "1000" "1000" 3000 1000 1000 rfl rfl rfl
      (by norm_num) (by norm_num) (by norm_num)
    obtain ⟨D, L, R, hp, hgt, _⟩ :=
      (C4_setup_toCoord_iff sampleOps sampleEnv sampleParseFloat sampleSettings
        ["setup", "3000", "1000", "1000"]).2 _ hargs
    simp only [List.cons.injEq, and_true] at hp
    obtain ⟨rfl, rfl, rfl⟩ := hp
    exact hgt (by norm_num [sampleOps])

/-- C4 (counterexample): `setup 1 5 1` requests `ToCoord` although the triple is
not triangle-feasible (`L = 5 > D + R = 2`). -/
theorem C4_setup_counterexample :
    (∃ e ∈ setup sampleOps sampleEnv sampleParseFloat sampleSettings ["setup", "1", "5", "1"],
      e.isToCoord = true) ∧
    ¬ TriangleFeasible sampleOps (some 1) (some 5) (some 1) := by
  constructor
  · rw [sample_setup_1_5_1]
    exact ⟨_, List.mem_cons_self _ _, rfl⟩
  · unfold TriangleFeasible
    norm_num [sampleOps]

/-! ## Theorems: `FlipPlotCoords` and the `test` command -/

theorem flipLoop_eq (flipX flipY : Bool) (coords : List Coordinate) :
    ∀ out, flipLoop flipX flipY coords out =
      out ++ coords.map (fun c => flipCoord flipX flipY c) := by
  induction coords with
  | nil => intro out; simp [flipLoop]
  | cons c cs ih =>
    intro out
    rw [flipLoop, ih]
    cases flipX <;> cases flipY <;> simp [flipCoord]

/-- C5: for every finite input stream and flags `(flipX, flipY)`,
`FlipPlotCoords` emits exactly one output per input, in the same order; the
i-th output has `X` negated iff `flipX`, `Y` negated iff `flipY`, and the
`PenUp` of the i-th input; the output stream is then closed; with both flags
false the output equals the input. -/
theorem C5_FlipPlotCoords (flipX flipY : Bool) (coords : List Coordinate) :
    (FlipPlotCoords flipX flipY coords).items.length = coords.length ∧
    (∀ i (h : i < coords.length),
      (FlipPlotCoords flipX flipY coords).items[i]? =
        some { X := if flipX then -(coords.get ⟨i, h⟩).X else (coords.get ⟨i, h⟩).X
               Y := if flipY then -(coords.get ⟨i, h⟩).Y else (coords.get ⟨i, h⟩).Y
               PenUp := (coords.get ⟨i, h⟩).PenUp }) ∧
    (FlipPlotCoords flipX flipY coords).closed = true ∧
    (FlipPlotCoords false false coords).items = coords := by
  have hmap : ∀ fx fy, (FlipPlotCoords fx fy coords).items =
      coords.map (fun c => flipCoord fx fy c) := by
    intro fx fy
    simp [FlipPlotCoords, flipLoop_eq]
  refine ⟨?_, ?_, rfl, ?_⟩
  · rw [hmap]; simp
  · intro i h
    rw [hmap]
    simp [List.getElem?_map, List.getElem?_eq_getElem h, flipCoord]
  · rw [hmap]
    simp [flipCoord]

/-- C5 (witness): flipping the test fixture left to right, third point. -/
theorem C5_FlipPlotCoords_witness :
    (FlipPlotCoords true false testFixture).items[2]? =
      some { X := -10.1, Y := 0, PenUp := false } := by
  have h := (C5_FlipPlotCoords true false testFixture).2.1 2 (by decide)
  rw [h]
  rfl

/-- C6: the `test` command run on the fresh 1024-element queue succeeds (no
send blocks), leaving on the stream exactly the nine fixture points in order
with `PenUp` set on the 5th, 6th, 8th and 9th only, and the stream closed; the
fixture starts and ends at the origin and has nine points, within the queue
capacity. -/
theorem C6_testCommand :
    testCommand (Chan.make 1024) =
      some { cap := 1024, buf := testFixture, closed := true } ∧
    testFixture.map (fun c => c.PenUp) =
      [false, false, false, false, true, true, false, true, true] ∧
    testFixture.map (fun c => (c.X, c.Y)) =
      [(0, 0), (10, 0), (10.1, 0), (10.1, 10), (10.1, 10), (20.1, 10), (20.1, 15),
       (20.1, 15), (0, 0)] ∧
    (testFixture.head?.map fun c => (c.X, c.Y)) = some (0, 0) ∧
    (testFixture.getLast?.map fun c => (c.X, c.Y)) = some (0, 0) ∧
    testFixture.length = 9 ∧ testFixture.length ≤ (Chan.make 1024).cap := by
  refine ⟨rfl, rfl, rfl, rfl, rfl, rfl, by decide⟩

/-! ## Theorems: `GetArgsAsFloats` -/

/-- What the loop of `GetArgsAsFloats` guarantees on a normal return. -/
theorem parseLoop_ok (ParseFloat : String → Option ℚ) (args : List String) :
    ∀ (remaining argIndex : Nat) (numbers result : List ℚ),
      argIndex + remaining ≤ numbers.length →
      parseLoop ParseFloat args remaining argIndex numbers = Except.ok result →
      result.length = numbers.length ∧
      (∀ i, i < argIndex → result[i]? = numbers[i]?) ∧
      (∀ i, argIndex ≤ i → i < argIndex + remaining →
        ∃ arg v, args[i]? = some arg ∧ ParseFloat arg = some v ∧ v ≠ 0 ∧
          result[i]? = some v) := by
  intro remaining
  induction remaining with
  | zero =>
    intro argIndex numbers result _ h
    simp only [parseLoop, Except.ok.injEq] at h
    subst h
    exact ⟨rfl, fun _ _ => rfl, fun i h1 h2 => by omega⟩
  | succ r ih =>
    intro argIndex numbers result hlen h
    rw [parseLoop] at h
    cases harg : args[argIndex]? with
    | none => simp [harg] at h
    | some arg =>
      cases hp : ParseFloat arg with
      | none => simp [harg, hp] at h
      | some v =>
        simp only [harg, hp] at h
        have hidx : argIndex < numbers.length := by omega
        have hget : (numbers.set argIndex v).getD argIndex 0 = v := by
          simp [List.getD_eq_getElem?_getD, hidx]
        rw [hget] at h
        by_cases hv : v = 0
        · simp [hv] at h
        · rw [if_neg hv] at h
          have hlen2 : argIndex + 1 + r ≤ (numbers.set argIndex v).length := by
            simp only [List.length_set]; omega
          obtain ⟨h1, h2, h3⟩ := ih (argIndex + 1) (numbers.set argIndex v) result hlen2 h
          refine ⟨by simpa using h1, ?_, ?_⟩
          · intro i hi
            rw [h2 i (by omega)]
            simp [List.getElem?_set_ne (show argIndex ≠ i by omega)]
          · intro i hi1 hi2
            by_cases hi : i = argIndex
            · subst hi
              refine ⟨arg, v, harg, hp, hv, ?_⟩
              rw [h2 i (by omega)]
              simp [hidx]
            · exact h3 i (by omega) (by omega)

/-- When the loop of `GetArgsAsFloats` panics, and when it returns. -/
theorem parseLoop_failed_iff (ParseFloat : String → Option ℚ) (args : List String) :
    ∀ (remaining argIndex : Nat) (numbers : List ℚ),
      argIndex + remaining ≤ numbers.length → argIndex + remaining ≤ args.length →
      (failed (parseLoop ParseFloat args remaining argIndex numbers) = true ↔
        ∃ i arg, argIndex ≤ i ∧ i < argIndex + remaining ∧ args[i]? = some arg ∧
          (ParseFloat arg = none ∨ ParseFloat arg = some 0)) := by
  intro remaining
  induction remaining with
  | zero =>
    intro argIndex numbers _ _
    simp only [parseLoop, failed, Bool.false_eq_true, false_iff]
    rintro ⟨i, _, h1, h2, _⟩
    omega
  | succ r ih =>
    intro argIndex numbers hlen hargs
    rw [parseLoop]
    have hidx : argIndex < numbers.length := by omega
    have hai : argIndex < args.length := by omega
    have harg : args[argIndex]? = some (args.get ⟨argIndex, hai⟩) := by simp [List.getElem?_eq_getElem hai]
    simp only [harg]
    cases hp : ParseFloat (args.get ⟨argIndex, hai⟩) with
    | none =>
      simp only [failed, true_iff]
      exact ⟨argIndex, _, le_refl _, by omega, harg, Or.inl hp⟩
    | some v =>
      have hget : (numbers.set argIndex v).getD argIndex 0 = v := by
        simp [List.getD_eq_getElem?_getD, hidx]
      simp only [hget]
      by_cases hv : v = 0
      · simp only [hv, if_true, failed, true_iff]
        exact ⟨argIndex, _, le_refl _, by omega, harg, Or.inr (hv ▸ hp)⟩
      · rw [if_neg hv]
        rw [ih (argIndex + 1) (numbers.set argIndex v)
          (by simp only [List.length_set]; omega) (by omega)]
        constructor
        · rintro ⟨i, arg, h1, h2, h3, h4⟩
          exact ⟨i, arg, by omega, by omega, h3, h4⟩
        · rintro ⟨i, arg, h1, h2, h3, h4⟩
          by_cases hi : i = argIndex
          · subst hi
            rw [harg] at h3
            cases h3
            rcases h4 with h4 | h4
            · rw [hp] at h4; cases h4
            · rw [hp] at h4; cases h4; exact absurd rfl hv
          · exact ⟨i, arg, by omega, by omega, h3, h4⟩

theorem parseLoop_append (ParseFloat : String → Option ℚ) (args extra : List String) :
    ∀ (remaining argIndex : Nat) (numbers : List ℚ),
      argIndex + remaining ≤ args.length →
      parseLoop ParseFloat (args ++ extra) remaining argIndex numbers =
        parseLoop ParseFloat args remaining argIndex numbers := by
  intro remaining
  induction remaining with
  | zero => intro argIndex numbers _; simp [parseLoop]
  | succ r ih =>
    intro argIndex numbers h
    have hai : argIndex < args.length := by omega
    have : (args ++ extra)[argIndex]? = args[argIndex]? := List.getElem?_append_left hai
    rw [parseLoop, parseLoop, this]
    cases args[argIndex]? with
    | none => rfl
    | some arg =>
      simp only
      cases ParseFloat arg with
      | none => rfl
      | some v =>
        simp only
        split
        · rfl
        · exact ih _ _ (by omega)

/-- When `GetArgsAsFloats` panics, for any `expectedCount` of type `int`: a
negative count, which no call site passes, would make the allocation panic. -/
theorem GetArgsAsFloats_failed_iff (ParseFloat : String → Option ℚ) (command : String)
    (args : List String) (expectedCount : Int) :
    (failed (GetArgsAsFloats ParseFloat command args expectedCount) = true ↔
      (args.length : Int) < expectedCount ∨ expectedCount < 0 ∨
      ∃ (i : Nat) (arg : String), (i : Int) < expectedCount ∧ args[i]? = some arg ∧
        (ParseFloat arg = none ∨ ParseFloat arg = some 0)) ∧
    (∀ extra : List String, expectedCount ≤ (args.length : Int) →
      GetArgsAsFloats ParseFloat command (args ++ extra) expectedCount =
        GetArgsAsFloats ParseFloat command args expectedCount) := by
  constructor
  · unfold GetArgsAsFloats
    by_cases h1 : (args.length : Int) < expectedCount
    · simp [h1, failed]
    · by_cases h2 : expectedCount < 0
      · simp [h1, h2, failed]
      · simp only [h1, h2, if_false, false_or]
        rw [parseLoop_failed_iff ParseFloat args expectedCount.toNat 0 _
          (by simp) (by omega)]
        constructor
        · rintro ⟨i, arg, _, hi, ha, hp⟩
          exact ⟨i, arg, by omega, ha, hp⟩
        · rintro ⟨i, arg, hi, ha, hp⟩
          exact ⟨i, arg, by omega, by omega, ha, hp⟩
  · intro extra hle
    unfold GetArgsAsFloats
    have h1 : ¬ (args.length : Int) < expectedCount := by omega
    have h1' : ¬ ((args ++ extra).length : Int) < expectedCount := by
      simp only [List.length_append, Nat.cast_add]; omega
    simp only [h1, h1', if_false]
    split
    · rfl
    · exact parseLoop_append ParseFloat args extra _ _ _ (by omega)

/-- C7: for every `expectedCount ≥ 0` (all call sites pass the literals 1, 2
or 3), `GetArgsAsFloats(command, args, expectedCount)` panics if and only if
`len(args) < expectedCount`, or one of the first `expectedCount` arguments does
not parse as a float, or one of them parses to 0; arguments at index
`≥ expectedCount` never cause a failure. -/
theorem C7_GetArgsAsFloats_fails_iff (ParseFloat : String → Option ℚ) (command : String)
    (args : List String) (expectedCount : Int) (h0 : 0 ≤ expectedCount) :
    (failed (GetArgsAsFloats ParseFloat command args expectedCount) = true ↔
      (args.length : Int) < expectedCount ∨
      ∃ (i : Nat) (arg : String), (i : Int) < expectedCount ∧ args[i]? = some arg ∧
        (ParseFloat arg = none ∨ ParseFloat arg = some 0)) ∧
    (∀ extra : List String, expectedCount ≤ (args.length : Int) →
      GetArgsAsFloats ParseFloat command (args ++ extra) expectedCount =
        GetArgsAsFloats ParseFloat command args expectedCount) := by
  obtain ⟨h1, h2⟩ := GetArgsAsFloats_failed_iff ParseFloat command args expectedCount
  refine ⟨?_, h2⟩
  rw [h1]
  constructor
  · rintro (h | h | h)
    · exact Or.inl h
    · omega
    · exact Or.inr h
  · rintro (h | h)
    · exact Or.inl h
    · exact Or.inr (Or.inr h)

/-- C7 (witness): the call with three expected arguments of which the second
is zero. -/
theorem C7_GetArgsAsFloats_fails_iff_witness :
    (0 : Int) ≤ 3 ∧
    (failed (GetArgsAsFloats sampleParse "setup" ["1000", "0", "1"] 3) = true ↔
      ((["1000", "0", "1"] : List String).length : Int) < 3 ∨
      ∃ (i : Nat) (arg : String), (i : Int) < 3 ∧
        (["1000", "0", "1"] : List String)[i]? = some arg ∧
        (sampleParse arg = none ∨ sampleParse arg = some 0)) ∧
    failed (GetArgsAsFloats sampleParse "setup" ["1000", "0", "1"] 3) = true :=
  ⟨by decide,
   (C7_GetArgsAsFloats_fails_iff sampleParse "setup" ["1000", "0", "1"] 3 (by decide)).1,
   rfl⟩

/-- C8: whenever `GetArgsAsFloats(command, args, expectedCount)` returns, the
result has length exactly `expectedCount`, its i-th element is the float
parsed from `args[i]` for every `i < expectedCount`, and every element is
nonzero. -/
theorem C8_GetArgsAsFloats_result (ParseFloat : String → Option ℚ) (command : String)
    (args : List String) (expectedCount : Int) (numbers : List ℚ)
    (h : GetArgsAsFloats ParseFloat command args expectedCount = Except.ok numbers) :
    (numbers.length : Int) = expectedCount ∧
    (∀ i : Nat, (i : Int) < expectedCount →
      ∃ arg v, args[i]? = some arg ∧ ParseFloat arg = some v ∧ numbers[i]? = some v) ∧
    (∀ v ∈ numbers, v ≠ 0) := by
  unfold GetArgsAsFloats at h
  by_cases h1 : (args.length : Int) < expectedCount
  · simp [h1] at h
  · by_cases h2 : expectedCount < 0
    · simp [h1, h2] at h
    · simp only [h1, h2, if_false] at h
      obtain ⟨hl, _, h3⟩ := parseLoop_ok ParseFloat args expectedCount.toNat 0 _ numbers
        (by simp) h
      simp only [List.length_replicate] at hl
      refine ⟨by omega, ?_, ?_⟩
      · intro i hi
        obtain ⟨arg, v, ha, hp, _, hr⟩ := h3 i (by omega) (by omega)
        exact ⟨arg, v, ha, hp, hr⟩
      · intro v hv
        obtain ⟨i, hi, hget⟩ := List.mem_iff_getElem.mp hv
        obtain ⟨arg, w, _, _, hw, hr⟩ := h3 i (by omega) (by omega)
        rw [List.getElem?_eq_getElem hi, hget] at hr
        cases hr
        exact hw

/-- C8 (witness): a call that returns. -/
theorem C8_GetArgsAsFloats_result_witness :
    GetArgsAsFloats sampleParse "setup" ["1000", "2", "1", "x"] 3 =
      Except.ok [1000, 2, 1] ∧
    (([1000, 2, 1] : List ℚ).length : Int) = 3 ∧
    (∀ i : Nat, (i : Int) < 3 →
      ∃ arg v, ["1000", "2", "1", "x"][i]? = some arg ∧ sampleParse arg = some v ∧
        ([1000, 2, 1] : List ℚ)[i]? = some v) ∧
    (∀ v ∈ ([1000, 2, 1] : List ℚ), v ≠ 0) :=
  ⟨rfl, C8_GetArgsAsFloats_result sampleParse "setup" ["1000", "2", "1", "x"] 3
    [1000, 2, 1] rfl⟩

/-! ## Theorems: Hilbert curve -/

theorem land_one_natCast (m : Nat) : Int.land 1 (m : Int) = ((m % 2 : Nat) : Int) := by
  have h : Int.land 1 (m : Int) = ((1 &&& m : Nat) : Int) := rfl
  rw [h, Nat.one_and_eq_mod_two]

theorem xor_natCast (a b : Nat) : Int.xor (a : Int) (b : Int) = ((a ^^^ b : Nat) : Int) := rfl

theorem xor_mod_two (a b : Nat) (hb : b < 2) : (a ^^^ b) % 2 = (a + b) % 2 := by
  have h := @Nat.xor_mod_two_eq_one a b
  have h2 : (a ^^^ b) % 2 < 2 := Nat.mod_lt _ (by decide)
  by_cases h1 : (a ^^^ b) % 2 = 1
  · have := h.mp h1
    omega
  · have := (not_congr h).mp h1
    omega

theorem hilbert_loop_step (n : Int) (fuel : Nat) (s : Int) (t : Nat) (x y : Int)
    (hs : s < n) :
    hilbert_loop n (fuel + 1) s (t : Int) x y =
      hilbert_loop n fuel (s * 2) ((t / 4 : Nat) : Int)
        (hilbertStep s t (x, y)).1 (hilbertStep s t (x, y)).2 := by
  have h2 : Int.tdiv (t : Int) 2 = ((t / 2 : Nat) : Int) := (Int.ofNat_tdiv t 2).symm
  have h4 : Int.tdiv (t : Int) 4 = ((t / 4 : Nat) : Int) := (Int.ofNat_tdiv t 4).symm
  rw [hilbert_loop, if_pos hs]
  simp only [h2, h4, land_one_natCast, xor_natCast]
  rw [xor_mod_two t (t / 2 % 2) (Nat.mod_lt _ (by decide))]
  rfl

theorem hilbert_loop_iter (d : Nat) :
    ∀ (m j fuel : Nat), m ≤ fuel →
      hilbert_loop ((2 : Int) ^ (j + m)) fuel ((2 : Int) ^ j) ((d / 4 ^ j : Nat) : Int)
        (hilbertIter j d).1 (hilbertIter j d).2 = some (hilbertIter (j + m) d) := by
  intro m
  induction m with
  | zero =>
    intro j fuel _
    cases fuel <;> simp [hilbert_loop]
  | succ m ih =>
    intro j fuel hf
    obtain ⟨f, rfl⟩ : ∃ f, fuel = f + 1 := ⟨fuel - 1, by omega⟩
    have hs : (2 : Int) ^ j < (2 : Int) ^ (j + (m + 1)) :=
      pow_lt_pow_right₀ (by norm_num) (by omega)
    rw [hilbert_loop_step _ _ _ _ _ _ hs]
    have e1 : (2 : Int) ^ j * 2 = (2 : Int) ^ (j + 1) := by ring
    have e2 : d / 4 ^ j / 4 = d / 4 ^ (j + 1) := by
      rw [Nat.div_div_eq_div_mul, pow_succ]
    have e3 : j + (m + 1) = j + 1 + m := by omega
    have e4 : hilbertStep ((2 : Int) ^ j) (d / 4 ^ j) (hilbertIter j d) = hilbertIter (j + 1) d := rfl
    rw [e1, e2, e3, show ((hilbertIter j d).1, (hilbertIter j d).2) = hilbertIter j d from rfl, e4]
    exact ih (j + 1) f (by omega)

/-- For `n = 2^k` and `d ≥ 0`, `hilbert_d2xy` returns, and its result is the
`k`-fold iterate. -/
theorem hilbert_d2xy_eq (k d : Nat) :
    hilbert_d2xy ((2 : Int) ^ k) (d : Int) = some (hilbertIter k d) := by
  unfold hilbert_d2xy
  have h := hilbert_loop_iter d k 0 ((2 : Int) ^ k).toNat (by
    have h1 : ((2 : Int) ^ k).toNat = 2 ^ k := by
      rw [show ((2 : Int) ^ k) = ((2 ^ k : Nat) : Int) by push_cast; rfl]
      exact Int.toNat_natCast _
    rw [h1]
    exact le_of_lt (Nat.lt_two_pow k))
  simpa [hilbertIter] using h

theorem hilbertStep_cases (s : Int) (t : Nat) (p : Int × Int) :
    (t % 4 = 0 ∧ hilbertStep s t p = (p.2, p.1)) ∨
    (t % 4 = 1 ∧ hilbertStep s t p = (p.1, p.2 + s)) ∨
    (t % 4 = 2 ∧ hilbertStep s t p = (p.1 + s, p.2 + s)) ∨
    (t % 4 = 3 ∧ hilbertStep s t p = (s - 1 - p.2 + s, s - 1 - p.1)) := by
  have h4 : t % 4 < 4 := Nat.mod_lt _ (by decide)
  simp only [hilbertStep, hilbert_rot]
  have : t % 4 = 0 ∨ t % 4 = 1 ∨ t % 4 = 2 ∨ t % 4 = 3 := by omega
  rcases this with h | h | h | h
  · left
    have h1 : t / 2 % 2 = 0 := by omega
    have h2 : (t + t / 2 % 2) % 2 = 0 := by omega
    rw [h2, h1]
    simp [h]
  · right; left
    have h1 : t / 2 % 2 = 0 := by omega
    have h2 : (t + t / 2 % 2) % 2 = 1 := by omega
    rw [h2, h1]
    simp [h]
  · right; right; left
    have h1 : t / 2 % 2 = 1 := by omega
    have h2 : (t + t / 2 % 2) % 2 = 1 := by omega
    rw [h2, h1]
    simp [h]
  · right; right; right
    have h1 : t / 2 % 2 = 1 := by omega
    have h2 : (t + t / 2 % 2) % 2 = 0 := by omega
    rw [h2, h1]
    simp [h]

theorem hilbertIter_range (d : Nat) :
    ∀ j, 0 ≤ (hilbertIter j d).1 ∧ (hilbertIter j d).1 < 2 ^ j ∧
      0 ≤ (hilbertIter j d).2 ∧ (hilbertIter j d).2 < 2 ^ j := by
  intro j
  induction j with
  | zero => simp [hilbertIter]
  | succ j ih =>
    obtain ⟨h1, h2, h3, h4⟩ := ih
    have e : (2 : Int) ^ (j + 1) = 2 * 2 ^ j := by ring
    rw [e]
    rw [hilbertIter]
    rcases hilbertStep_cases (2 ^ j) (d / 4 ^ j) (hilbertIter j d) with
      ⟨_, h⟩ | ⟨_, h⟩ | ⟨_, h⟩ | ⟨_, h⟩ <;> rw [h] <;> simp only <;>
      refine ⟨?_, ?_, ?_, ?_⟩ <;> omega

/-- The loop body for one digit is injective on a quadrant, and the digit is
recovered from the image. -/
theorem hilbertStep_inj (s : Int) (t t' : Nat) (p p' : Int × Int)
    (hp : 0 ≤ p.1 ∧ p.1 < s ∧ 0 ≤ p.2 ∧ p.2 < s)
    (hp' : 0 ≤ p'.1 ∧ p'.1 < s ∧ 0 ≤ p'.2 ∧ p'.2 < s)
    (h : hilbertStep s t p = hilbertStep s t' p') : t % 4 = t' % 4 ∧ p = p' := by
  obtain ⟨a1, a2, a3, a4⟩ := hp
  obtain ⟨b1, b2, b3, b4⟩ := hp'
  rcases hilbertStep_cases s t p with ⟨c, e⟩ | ⟨c, e⟩ | ⟨c, e⟩ | ⟨c, e⟩ <;>
  rcases hilbertStep_cases s t' p' with ⟨c', e'⟩ | ⟨c', e'⟩ | ⟨c', e'⟩ | ⟨c', e'⟩ <;>
  rw [e, e'] at h <;>
  simp only [Prod.mk.injEq] at h <;>
  obtain ⟨h1, h2⟩ := h <;>
  refine ⟨?_, Prod.ext ?_ ?_⟩ <;> omega

theorem hilbertIter_inj :
    ∀ (j d d' : Nat), hilbertIter j d = hilbertIter j d' → d % 4 ^ j = d' % 4 ^ j := by
  intro j
  induction j with
  | zero => intro d d' _; simp [Nat.mod_one]
  | succ j ih =>
    intro d d' h
    rw [hilbertIter, hilbertIter] at h
    obtain ⟨hq, hp⟩ := hilbertStep_inj _ _ _ _ _ (hilbertIter_range d j)
      (hilbertIter_range d' j) h
    have hm := ih d d' hp
    rw [Nat.mod_pow_succ, Nat.mod_pow_succ, hm, hq]

theorem four_pow_eq (k : Nat) : 4 ^ k = 2 ^ k * 2 ^ k := by
  rw [← mul_pow]
  rfl

theorem hilbertIter_inj_lt (k d d' : Nat) (hd : d < 4 ^ k) (hd' : d' < 4 ^ k)
    (h : hilbertIter k d = hilbertIter k d') : d = d' := by
  have := hilbertIter_inj k d d' h
  rwa [Nat.mod_eq_of_lt hd, Nat.mod_eq_of_lt hd'] at this

/-- The iterate as a map from indices below `4^k` to the `2^k × 2^k` grid. -/
theorem hilbertIter_surj (k : Nat) (x y : Nat) (hx : x < 2 ^ k) (hy : y < 2 ^ k) :
    ∃ d, d < 4 ^ k ∧ hilbertIter k d = ((x : Int), (y : Int)) := by
  have hr : ∀ d : Nat, (hilbertIter k d).1.toNat < 2 ^ k ∧ (hilbertIter k d).2.toNat < 2 ^ k := by
    intro d
    obtain ⟨h1, h2, h3, h4⟩ := hilbertIter_range d k
    have e : ((2 : Int) ^ k) = ((2 ^ k : Nat) : Int) := by push_cast; rfl
    rw [e] at h2 h4
    constructor <;> omega
  let f : Fin (4 ^ k) → Fin (2 ^ k) × Fin (2 ^ k) := fun d =>
    (⟨(hilbertIter k d.1).1.toNat, (hr d.1).1⟩, ⟨(hilbertIter k d.1).2.toNat, (hr d.1).2⟩)
  have hinj : Function.Injective f := by
    intro a b hab
    simp only [f, Prod.mk.injEq, Fin.mk.injEq] at hab
    obtain ⟨ha1, _, ha3, _⟩ := hilbertIter_range a.1 k
    obtain ⟨hb1, _, hb3, _⟩ := hilbertIter_range b.1 k
    apply Fin.ext
    apply hilbertIter_inj_lt k a.1 b.1 a.2 b.2
    apply Prod.ext <;> omega
  have hcard : Fintype.card (Fin (4 ^ k)) = Fintype.card (Fin (2 ^ k) × Fin (2 ^ k)) := by
    simp [four_pow_eq]
  have hbij := (Fintype.bijective_iff_injective_and_card f).mpr ⟨hinj, hcard⟩
  obtain ⟨d, hd⟩ := hbij.2 (⟨x, hx⟩, ⟨y, hy⟩)
  refine ⟨d.1, d.2, ?_⟩
  simp only [f, Prod.mk.injEq, Fin.mk.injEq] at hd
  obtain ⟨h1, _, h3, _⟩ := hilbertIter_range d.1 k
  apply Prod.ext <;> simp only <;> omega

/-- C9: for every `k ≥ 0` and `n = 2^k`, `hilbert_d2xy(n, ·)` restricted to
`0 ≤ d < n*n` returns for every index a cell with `0 ≤ x < n`, `0 ≤ y < n`,
sends distinct indices to distinct cells, and reaches every cell of the grid:
it is a bijection onto `{0..n-1} × {0..n-1}`. -/
theorem C9_hilbert_bijection (k : Nat) :
    (∀ d : Int, 0 ≤ d → d < 2 ^ k * 2 ^ k →
      ∃ x y : Int, hilbert_d2xy (2 ^ k) d = some (x, y) ∧
        0 ≤ x ∧ x < 2 ^ k ∧ 0 ≤ y ∧ y < 2 ^ k) ∧
    (∀ d d' : Int, 0 ≤ d → d < 2 ^ k * 2 ^ k → 0 ≤ d' → d' < 2 ^ k * 2 ^ k →
      hilbert_d2xy (2 ^ k) d = hilbert_d2xy (2 ^ k) d' → d = d') ∧
    (∀ x y : Int, 0 ≤ x → x < 2 ^ k → 0 ≤ y → y < 2 ^ k →
      ∃ d : Int, 0 ≤ d ∧ d < 2 ^ k * 2 ^ k ∧ hilbert_d2xy (2 ^ k) d = some (x, y)) := by
  have e2 : ((2 : Int) ^ k) = ((2 ^ k : Nat) : Int) := by push_cast; rfl
  have e4 : ((2 : Int) ^ k * 2 ^ k) = ((4 ^ k : Nat) : Int) := by
    rw [four_pow_eq]; push_cast; rfl
  refine ⟨?_, ?_, ?_⟩
  · intro d hd _
    obtain ⟨n, rfl⟩ := Int.eq_ofNat_of_zero_le hd
    exact ⟨_, _, hilbert_d2xy_eq k n, hilbertIter_range n k⟩
  · intro d d' hd hlt hd' hlt' h
    obtain ⟨n, rfl⟩ := Int.eq_ofNat_of_zero_le hd
    obtain ⟨n', rfl⟩ := Int.eq_ofNat_of_zero_le hd'
    rw [hilbert_d2xy_eq, hilbert_d2xy_eq, Option.some.injEq] at h
    rw [e4] at hlt hlt'
    exact congrArg Nat.cast (hilbertIter_inj_lt k n n' (by exact_mod_cast hlt)
      (by exact_mod_cast hlt') h)
  · intro x y hx hxlt hy hylt
    obtain ⟨a, rfl⟩ := Int.eq_ofNat_of_zero_le hx
    obtain ⟨b, rfl⟩ := Int.eq_ofNat_of_zero_le hy
    rw [e2] at hxlt hylt
    obtain ⟨d, hd, h⟩ := hilbertIter_surj k a b (by exact_mod_cast hxlt) (by exact_mod_cast hylt)
    refine ⟨(d : Int), by omega, ?_, ?_⟩
    · rw [e4]; exact_mod_cast hd
    · rw [hilbert_d2xy_eq, h]

/-- C9 (witness): the 4 by 4 grid. -/
theorem C9_hilbert_bijection_witness :
    (∃ x y : Int, hilbert_d2xy (2 ^ 2) 7 = some (x, y) ∧
        0 ≤ x ∧ x < 2 ^ 2 ∧ 0 ≤ y ∧ y < 2 ^ 2) ∧
    hilbert_d2xy (2 ^ 2) 7 = some (1, 2) ∧
    (∃ d : Int, 0 ≤ d ∧ d < 2 ^ 2 * 2 ^ 2 ∧ hilbert_d2xy (2 ^ 2) d = some (3, 1)) :=
  ⟨(C9_hilbert_bijection 2).1 7 (by decide) (by decide), by decide,
   (C9_hilbert_bijection 2).2.2 3 1 (by decide) (by decide) (by decide) (by decide)⟩

theorem edgeAdjacent_iff (p q : Int × Int) :
    EdgeAdjacent p q ↔
      ((q.1 = p.1 + 1 ∨ p.1 = q.1 + 1) ∧ p.2 = q.2) ∨
      (p.1 = q.1 ∧ (q.2 = p.2 + 1 ∨ p.2 = q.2 + 1)) := by
  unfold EdgeAdjacent
  constructor <;> rintro (⟨h1, h2⟩ | ⟨h1, h2⟩) <;> omega

theorem digit_zero (P a q : Nat) (hP : 0 < P) (h : a + P * q = 0) : a = 0 ∧ q = 0 := by
  have h1 : a = 0 := by omega
  have h2 : P * q = 0 := by omega
  rcases Nat.mul_eq_zero.mp h2 with h3 | h3
  · omega
  · exact ⟨h1, h3⟩

theorem digit_last (P a q : Nat) (ha : a < P) (hq : q < 4) (h : a + P * q = P * 4 - 1) :
    a = P - 1 ∧ q = 3 := by
  interval_cases q <;> omega

theorem hilbertIter_entry :
    ∀ (j d : Nat), d % 4 ^ j = 0 → hilbertIter j d = (0, 0) := by
  intro j
  induction j with
  | zero => intro d _; rfl
  | succ j ih =>
    intro d h
    rw [Nat.mod_pow_succ] at h
    obtain ⟨h1, h2⟩ := digit_zero _ _ _ (by positivity) h
    rw [hilbertIter, ih d h1]
    rcases hilbertStep_cases (2 ^ j) (d / 4 ^ j) (0, 0) with
      ⟨_, e⟩ | ⟨c, _⟩ | ⟨c, _⟩ | ⟨c, _⟩
    · exact e
    all_goals omega

theorem hilbertIter_exit :
    ∀ (j d : Nat), d % 4 ^ j = 4 ^ j - 1 → hilbertIter j d = (2 ^ j - 1, 0) := by
  intro j
  induction j with
  | zero => intro d _; rfl
  | succ j ih =>
    intro d h
    rw [Nat.mod_pow_succ, pow_succ] at h
    obtain ⟨h1, h2⟩ := digit_last _ _ _ (Nat.mod_lt _ (by positivity))
      (Nat.mod_lt _ (by decide)) h
    rw [hilbertIter, ih d h1]
    have e2 : (2 : Int) ^ (j + 1) = 2 * 2 ^ j := by ring
    rcases hilbertStep_cases (2 ^ j) (d / 4 ^ j) (2 ^ j - 1, 0) with
      ⟨c, _⟩ | ⟨c, _⟩ | ⟨c, _⟩ | ⟨_, e⟩
    · omega
    · omega
    · omega
    · rw [e, e2]
      apply Prod.ext <;> simp only <;> omega

/-- The loop body for a fixed digit preserves edge adjacency. -/
theorem hilbertStep_adj (s : Int) (t : Nat) (p p' : Int × Int) (h : EdgeAdjacent p p') :
    EdgeAdjacent (hilbertStep s t p) (hilbertStep s t p') := by
  rw [edgeAdjacent_iff] at h ⊢
  rcases hilbertStep_cases s t p with ⟨c, e⟩ | ⟨c, e⟩ | ⟨c, e⟩ | ⟨c, e⟩ <;>
  rcases hilbertStep_cases s t p' with ⟨c', e'⟩ | ⟨c', e'⟩ | ⟨c', e'⟩ | ⟨c', e'⟩ <;>
  first
    | omega
    | (rw [e, e']; simp only; omega)

/-- Where one quadrant's copy of the curve ends, the next one starts next to it. -/
theorem hilbertStep_junction (s : Int) (t : Nat) (ht : t % 4 ≠ 3) :
    EdgeAdjacent (hilbertStep s t (s - 1, 0)) (hilbertStep s (t + 1) (0, 0)) := by
  rw [edgeAdjacent_iff]
  rcases hilbertStep_cases s t (s - 1, 0) with ⟨c, e⟩ | ⟨c, e⟩ | ⟨c, e⟩ | ⟨c, e⟩ <;>
  rcases hilbertStep_cases s (t + 1) (0, 0) with ⟨c', e'⟩ | ⟨c', e'⟩ | ⟨c', e'⟩ | ⟨c', e'⟩ <;>
  first
    | omega
    | (rw [e, e']; simp only [true_and, and_true]; omega)

theorem hilbertIter_adj :
    ∀ (j d : Nat), (d + 1) % 4 ^ j ≠ 0 →
      EdgeAdjacent (hilbertIter j d) (hilbertIter j (d + 1)) := by
  intro j
  induction j with
  | zero => intro d h; simp [Nat.mod_one] at h
  | succ j ih =>
    intro d h
    have hP : 0 < 4 ^ j := by positivity
    rw [hilbertIter, hilbertIter]
    by_cases hc : (d + 1) % 4 ^ j = 0
    · -- the index crosses into the next quadrant
      have hdvd : 4 ^ j ∣ d + 1 := Nat.dvd_of_mod_eq_zero hc
      have hdiv : (d + 1) / 4 ^ j = d / 4 ^ j + 1 := by
        rw [Nat.succ_div, if_pos hdvd]
      have hmod : d % 4 ^ j = 4 ^ j - 1 := by
        have h1 := Nat.div_add_mod (d + 1) (4 ^ j)
        have h2 := Nat.div_add_mod d (4 ^ j)
        have h3 := Nat.mod_lt d hP
        rw [hc, hdiv, Nat.mul_add, Nat.mul_one] at h1
        omega
      have hq : d / 4 ^ j % 4 ≠ 3 := by
        intro hq
        apply h
        rw [Nat.mod_pow_succ, hc, hdiv]
        have : (d / 4 ^ j + 1) % 4 = 0 := by omega
        rw [this]; simp
      rw [hilbertIter_exit j d hmod, hilbertIter_entry j (d + 1) hc, hdiv]
      exact hilbertStep_junction _ _ hq
    · have hdvd : ¬ 4 ^ j ∣ d + 1 := fun hd => hc (Nat.mod_eq_zero_of_dvd hd)
      have hdiv : (d + 1) / 4 ^ j = d / 4 ^ j := by
        rw [Nat.succ_div, if_neg hdvd]; rfl
      rw [hdiv]
      exact hilbertStep_adj _ _ _ _ (ih d hc)

/-- C10: for every `k` (in particular `k ≥ 1`), `n = 2^k` and every `d` with
`0 ≤ d < n*n - 1`, `hilbert_d2xy(n, d)` and `hilbert_d2xy(n, d+1)` both return
and the two cells are edge-adjacent: they differ by exactly 1 in exactly one
of `x`, `y` and agree in the other. -/
theorem C10_hilbert_adjacent (k : Nat) (d : Int) (h0 : 0 ≤ d)
    (hd : d < 2 ^ k * 2 ^ k - 1) :
    ∃ p q : Int × Int, hilbert_d2xy (2 ^ k) d = some p ∧
      hilbert_d2xy (2 ^ k) (d + 1) = some q ∧ EdgeAdjacent p q := by
  have e4 : ((2 : Int) ^ k * 2 ^ k) = ((4 ^ k : Nat) : Int) := by
    rw [four_pow_eq]; push_cast; rfl
  obtain ⟨n, rfl⟩ := Int.eq_ofNat_of_zero_le h0
  rw [e4] at hd
  have hlt : n + 1 < 4 ^ k := by omega
  refine ⟨hilbertIter k n, hilbertIter k (n + 1), hilbert_d2xy_eq k n, ?_, ?_⟩
  · exact_mod_cast hilbert_d2xy_eq k (n + 1)
  · apply hilbertIter_adj
    rw [Nat.mod_eq_of_lt hlt]
    omega

/-- C10 (witness): indices 7 and 8 of the 4 by 4 curve. -/
theorem C10_hilbert_adjacent_witness :
    (0 : Int) ≤ 7 ∧ (7 : Int) < 2 ^ 2 * 2 ^ 2 - 1 ∧
    hilbert_d2xy (2 ^ 2) 7 = some (1, 2) ∧ hilbert_d2xy (2 ^ 2) (7 + 1) = some (2, 2) ∧
    ∃ p q : Int × Int, hilbert_d2xy (2 ^ 2) 7 = some p ∧
      hilbert_d2xy (2 ^ 2) (7 + 1) = some q ∧ EdgeAdjacent p q :=
  ⟨by decide, by decide, by decide, by decide,
   C10_hilbert_adjacent 2 7 (by decide) (by decide)⟩

/-! ## Theorems: `GenerateHilbertCurve` -/

theorem truncToInt_two : truncToInt 2 = 2 := by decide

theorem truncToInt_three : truncToInt 3 = 3 := by decide

/-- The points `GenerateGrid` sends for a 2 by 2 grid of width 2. -/
theorem GenerateGrid_two :
    (GenerateGrid { Width := 2, Cells := 2 }).items =
      [⟨2, 0, false⟩, ⟨2, 1, false⟩, ⟨0, 1, false⟩, ⟨0, 2, false⟩, ⟨0, 2, false⟩,
       ⟨0, 0, false⟩, ⟨1, 0, false⟩, ⟨1, 2, false⟩, ⟨2, 2, false⟩, ⟨2, 0, false⟩,
       ⟨0, 0, false⟩] := by
  simp only [GenerateGrid, truncToInt_two]
  have h2 : (2 : Int).toNat = 2 := rfl
  rw [h2]
  simp only [gridRowLoop, gridColLoop]
  norm_num [Int.tmod]

/-- The points `GenerateGrid` sends for a 3 by 3 grid of width 3. -/
theorem GenerateGrid_three :
    (GenerateGrid { Width := 3, Cells := 3 }).items =
      [⟨3, 0, false⟩, ⟨3, 1, false⟩, ⟨0, 1, false⟩, ⟨0, 2, false⟩, ⟨3, 2, false⟩,
       ⟨3, 3, false⟩, ⟨0, 3, false⟩, ⟨0, 0, false⟩, ⟨1, 0, false⟩, ⟨1, 3, false⟩,
       ⟨2, 3, false⟩, ⟨2, 0, false⟩, ⟨3, 0, false⟩, ⟨0, 0, false⟩] := by
  simp only [GenerateGrid, truncToInt_three]
  have h3 : (3 : Int).toNat = 3 := rfl
  rw [h3]
  simp only [gridRowLoop, gridColLoop]
  norm_num [Int.tmod]

/-- C12 (failing inputs): for a 2 by 2 grid of width 2 the pen path never draws
the edge from `(0,2)` to `(1,2)` of the cell in column 0, row 1, and for a
3 by 3 grid of width 3 it never draws the edge from `(3,1)` to `(3,2)` of the
cell in column 2, row 1; in both cases the grid is not drawn whole. -/
theorem C12_GenerateGrid_missing_edge :
    (¬ EdgeDrawn (penPath (GenerateGrid { Width := 2, Cells := 2 })) (0, 2) (1, 2) ∧
      ¬ GridDrawn 2 2 (penPath (GenerateGrid { Width := 2, Cells := 2 }))) ∧
    (¬ EdgeDrawn (penPath (GenerateGrid { Width := 3, Cells := 3 })) (3, 1) (3, 2) ∧
      ¬ GridDrawn 3 3 (penPath (GenerateGrid { Width := 3, Cells := 3 }))) := by
  have h2 : ¬ EdgeDrawn (penPath (GenerateGrid { Width := 2, Cells := 2 })) (0, 2) (1, 2) := by
    rw [penPath, GenerateGrid_two]
    simp only [EdgeDrawn, OnSegment]
    norm_num
  have h3 : ¬ EdgeDrawn (penPath (GenerateGrid { Width := 3, Cells := 3 })) (3, 1) (3, 2) := by
    rw [penPath, GenerateGrid_three]
    simp only [EdgeDrawn, OnSegment]
    norm_num
  refine ⟨⟨h2, ?_⟩, ⟨h3, ?_⟩⟩
  · intro h
    have h' := (h 0 1 (by decide) (by decide)).2.1
    norm_num at h'
    exact h2 h'
  · intro h
    have h' := (h 2 1 (by decide) (by decide)).2.2.2
    norm_num at h'
    exact h3 h'

theorem truncToInt_one : truncToInt 1 = 1 := by decide

/-- A single cell is drawn whole: the defect needs at least two cells a side. -/
theorem GenerateGrid_one_drawn :
    GridDrawn 1 1 (penPath (GenerateGrid { Width := 1, Cells := 1 })) := by
  have h : (GenerateGrid { Width := 1, Cells := 1 }).items =
      [⟨1, 0, false⟩, ⟨1, 1, false⟩, ⟨0, 1, false⟩, ⟨0, 0, false⟩, ⟨1, 0, false⟩,
       ⟨0, 0, false⟩] := by
    simp only [GenerateGrid, truncToInt_one]
    have h1 : (1 : Int).toNat = 1 := rfl
    rw [h1]
    simp only [gridRowLoop, gridColLoop]
    norm_num [Int.tmod]
  intro i j hi hj
  obtain rfl : i = 0 := by omega
  obtain rfl : j = 0 := by omega
  rw [penPath, h]
  simp only [EdgeDrawn, OnSegment]
  norm_num

/-! ## Theorems: `GenerateParabolic` -/

theorem parabolicPointsLoop_spec {F : Type} (ops : Float64Arith F) (setup : Parabolic F) :
    ∀ (remaining e : Nat) (points : List (CoordinateOf F)), e + remaining ≤ points.length →
      (parabolicPointsLoop ops setup remaining (e : Int) points).length = points.length ∧
      ∀ j, (parabolicPointsLoop ops setup remaining (e : Int) points).getD j
          (CoordinateOf.origin ops) =
        if e ≤ j ∧ j < e + remaining then polygonVertex ops setup j
        else points.getD j (CoordinateOf.origin ops) := by
  intro remaining
  induction remaining with
  | zero =>
    intro e points _
    refine ⟨rfl, fun j => ?_⟩
    rw [if_neg (by omega)]
    rfl
  | succ r ih =>
    intro e points hlen
    rw [parabolicPointsLoop]
    simp only [Int.toNat_natCast]
    have h := ih (e + 1) (points.set e (polygonVertex ops setup e))
      (by rw [List.length_set]; omega)
    rw [Nat.cast_add, Nat.cast_one, List.length_set] at h
    refine ⟨h.1, fun j => ?_⟩
    have hj := h.2 j
    unfold polygonVertex at hj h ⊢
    rw [hj]
    by_cases hje : j = e
    · subst hje
      rw [if_neg (by omega), if_pos (by omega)]
      simp [List.getD_eq_getElem?_getD, show j < points.length by omega]
    · by_cases hr : e + 1 ≤ j ∧ j < e + 1 + r
      · rw [if_pos hr, if_pos (by omega)]
      · rw [if_neg hr, if_neg (by omega)]
        simp [List.getD_eq_getElem?_getD, List.getElem?_set_ne (Ne.symm hje)]

theorem parabolicLineLoop_eq {F : Type} (ops : Float64Arith F)
    (sb se db de : CoordinateOf F) (linesCount : Int) :
    ∀ (remaining i : Nat) (out : List (CoordinateOf F)),
      parabolicLineLoop ops sb se db de linesCount remaining (i : Int) out =
        out ++ (List.range' i remaining).flatMap
          (parabolicLineCoords ops sb se db de linesCount) := by
  intro remaining
  induction remaining with
  | zero => intro i out; simp [parabolicLineLoop]
  | succ r ih =>
    intro i out
    rw [parabolicLineLoop]
    have hmod : (Int.tmod (i : Int) 2 = 0) ↔ (i % 2 = 0) := by
      have h : Int.tmod (i : Int) 2 = ((i % 2 : Nat) : Int) := rfl
      rw [h]; omega
    have hstep := fun o => ih (i + 1) o
    simp only [Nat.cast_add, Nat.cast_one] at hstep
    simp only [hstep, List.range'_succ, List.flatMap_cons, parabolicLineCoords, hmod]
    split <;> simp

theorem parabolicEdgeLoop_eq {F : Type} (ops : Float64Arith F)
    (points : List (CoordinateOf F)) (edgeCountInt linesCount : Int) :
    ∀ (remaining e : Nat) (out : List (CoordinateOf F)),
      parabolicEdgeLoop ops points edgeCountInt linesCount remaining (e : Int) out =
        out ++ (List.range' e remaining).flatMap
          (parabolicEdgeCoords ops points edgeCountInt linesCount) := by
  intro remaining
  induction remaining with
  | zero => intro e out; simp [parabolicEdgeLoop]
  | succ r ih =>
    intro e out
    rw [parabolicEdgeLoop]
    have hstep := fun o => ih (e + 1) o
    simp only [Nat.cast_add, Nat.cast_one] at hstep
    have hline := parabolicLineLoop_eq ops (points.getD e (CoordinateOf.origin ops))
      { X := ops.zero, Y := ops.zero } { X := ops.zero, Y := ops.zero }
      (points.getD (Int.tmod ((e : Int) + 1) edgeCountInt).toNat (CoordinateOf.origin ops))
      linesCount linesCount.toNat 0 out
    rw [Nat.cast_zero] at hline
    simp only [Int.toNat_natCast, hstep, hline, List.range'_succ, List.flatMap_cons,
      parabolicEdgeCoords, ← List.range_eq_range', List.append_assoc]

theorem parabolicPoints_getD {F : Type} (ops : Float64Arith F) (setup : Parabolic F)
    (c : Nat) (j : Nat) (hj : j < c) :
    (parabolicPointsLoop ops setup c 0 (List.replicate c (CoordinateOf.origin ops))).getD j
      (CoordinateOf.origin ops) = polygonVertex ops setup j := by
  have h := (parabolicPointsLoop_spec ops setup c 0
    (List.replicate c (CoordinateOf.origin ops)) (by simp)).2 j
  rw [Nat.cast_zero] at h
  rw [h, if_pos (by omega)]

theorem parabolicEdgeCoords_eq {F : Type} (ops : Float64Arith F) (setup : Parabolic F)
    (c l e : Nat) (he : e < c) :
    parabolicEdgeCoords ops
      (parabolicPointsLoop ops setup c 0 (List.replicate c (CoordinateOf.origin ops)))
      (c : Int) (l : Int) e = parabolicEdge ops setup c l e := by
  have hmod : (Int.tmod ((e : Int) + 1) (c : Int)).toNat = (e + 1) % c := by
    have h : Int.tmod ((e : Int) + 1) (c : Int) = (((e + 1) % c : Nat) : Int) := by
      rw [Int.ofNat_tmod]; push_cast; rfl
    rw [h, Int.toNat_natCast]
  unfold parabolicEdgeCoords parabolicEdge
  rw [hmod, parabolicPoints_getD ops setup c e he,
    parabolicPoints_getD ops setup c ((e + 1) % c) (Nat.mod_lt _ (by omega)), Int.toNat_natCast]
  rfl

theorem GenerateParabolic_eq {F : Type} (ops : Float64Arith F) (setup : Parabolic F)
    (c l : Nat) (hc : ops.toInt setup.PolygonEdgeCount = (c : Int))
    (hl : ops.toInt setup.Lines = (l : Int)) :
    GenerateParabolic ops setup =
      some { items := (List.range c).flatMap (parabolicEdge ops setup c l), closed := true } := by
  unfold GenerateParabolic
  simp only [hc, hl, Int.toNat_natCast]
  rw [if_neg (by omega)]
  have h := parabolicEdgeLoop_eq ops
    (parabolicPointsLoop ops setup c 0 (List.replicate c (CoordinateOf.origin ops)))
    (c : Int) (l : Int) c 0 []
  rw [Nat.cast_zero] at h
  rw [h, List.nil_append, ← List.range_eq_range']
  congr 2
  exact List.flatMap_congr
    (fun e he => parabolicEdgeCoords_eq ops setup c l e (List.mem_range.mp he))

theorem length_flatMap_range {α : Type} (f : Nat → List α) (m : Nat)
    (hf : ∀ i, (f i).length = m) : ∀ n, ((List.range n).flatMap f).length = n * m := by
  intro n
  induction n with
  | zero => simp
  | succ n ih =>
    rw [List.range_succ, List.flatMap_append, List.length_append, ih, List.flatMap_singleton, hf]
    ring

theorem length_parabolicEdge {F : Type} (ops : Float64Arith F) (setup : Parabolic F)
    (c l e : Nat) : (parabolicEdge ops setup c l e).length = 2 * l + 1 := by
  unfold parabolicEdge
  rw [List.length_append, length_flatMap_range _ 2 (fun i => by
    unfold parabolicLine; split <;> rfl)]
  simp [Nat.mul_comm]

/-- C13 (as amended): when `int(PolygonEdgeCount) = c` and `int(Lines) = l`
(in particular for integer counts `c ≥ 1`, `l ≥ 1`), `GenerateParabolic` sends
exactly `c*(2l+1)` points and closes the stream: for each edge `e` in order the
`l` lines, the i-th joining `((0,0) - V_e)·(i/l) + V_e` to
`(V_((e+1) mod c) - (0,0))·((i+1)/l) + (0,0)` (start first when `i` is even,
end first when `i` is odd), followed by `(0,0)`, where `V_e` is
`(Radius·cos(a), Radius·sin(a))` with `a = (2π/PolygonEdgeCount)·e` and every
operation is the float64 one.  No distance bound is asserted. -/
theorem C13_GenerateParabolic {F : Type} (ops : Float64Arith F) (setup : Parabolic F)
    (c l : Nat) (hc : ops.toInt setup.PolygonEdgeCount = (c : Int))
    (hl : ops.toInt setup.Lines = (l : Int)) :
    ∃ out : SentOf F,
      GenerateParabolic ops setup = some out ∧
      out.closed = true ∧
      out.items.length = c * (2 * l + 1) ∧
      out.items = (List.range c).flatMap (fun e =>
        (List.range l).flatMap (parabolicLine ops setup c l e) ++ [CoordinateOf.origin ops]) := by
  refine ⟨_, GenerateParabolic_eq ops setup c l hc hl, rfl, ?_, rfl⟩
  exact length_flatMap_range _ _ (length_parabolicEdge ops setup c l) c

theorem realArith_toInt_natCast (n : Nat) : realArith.toInt (n : ℝ) = (n : Int) := by
  simp only [realArith]
  rw [if_pos (Nat.cast_nonneg n)]
  exact Int.floor_natCast n

/-- C13 (witness): over exact reals, radius 10 with 4 polygon edges and 2 lines
an edge. -/
theorem C13_GenerateParabolic_witness :
    realArith.toInt ((4 : Nat) : ℝ) = ((4 : Nat) : Int) ∧
    realArith.toInt ((2 : Nat) : ℝ) = ((2 : Nat) : Int) ∧
    ∃ out : SentOf ℝ,
      GenerateParabolic realArith
        { Radius := 10, PolygonEdgeCount := ((4 : Nat) : ℝ), Lines := ((2 : Nat) : ℝ) } =
        some out ∧
      out.closed = true ∧
      out.items.length = 4 * (2 * 2 + 1) ∧
      out.items = (List.range 4).flatMap (fun e =>
        (List.range 2).flatMap (parabolicLine realArith
          { Radius := 10, PolygonEdgeCount := ((4 : Nat) : ℝ), Lines := ((2 : Nat) : ℝ) } 4 2 e)
          ++ [CoordinateOf.origin realArith]) :=
  ⟨realArith_toInt_natCast 4, realArith_toInt_natCast 2,
   C13_GenerateParabolic realArith
     { Radius := 10, PolygonEdgeCount := ((4 : Nat) : ℝ), Lines := ((2 : Nat) : ℝ) } 4 2
     (realArith_toInt_natCast 4) (realArith_toInt_natCast 2)⟩

/-- C13 (counterexample): with `Radius = -1`, one polygon edge and one line
(`parabolic -1 1 1`), where no operation rounds, `GenerateParabolic` sends
`(-1,0)`, `(-1,0)`, `(0,0)`; the first point is at distance 1 from the origin,
not within distance `Radius = -1`. -/
theorem C13_GenerateParabolic_counterexample :
    GenerateParabolic realArith
        { Radius := -1, PolygonEdgeCount := ((1 : Nat) : ℝ), Lines := ((1 : Nat) : ℝ) } =
      some { items := [⟨-1, 0, false⟩, ⟨-1, 0, false⟩, ⟨0, 0, false⟩], closed := true } ∧
    Real.sqrt ((-1 : ℝ) ^ 2 + (0 : ℝ) ^ 2) = 1 ∧
    ¬ Real.sqrt ((-1 : ℝ) ^ 2 + (0 : ℝ) ^ 2) ≤ -1 := by
  have hs : Real.sqrt ((-1 : ℝ) ^ 2 + (0 : ℝ) ^ 2) = 1 := by norm_num
  refine ⟨?_, hs, by rw [hs]; norm_num⟩
  rw [GenerateParabolic_eq realArith _ 1 1 (realArith_toInt_natCast 1)
    (realArith_toInt_natCast 1)]
  have hr : List.range 1 = [0] := rfl
  simp only [hr, List.flatMap_cons, List.flatMap_nil, List.append_nil, parabolicEdge,
    parabolicLine, polygonVertex, CoordinateOf.origin, CoordinateOf.Add, CoordinateOf.Scaled,
    CoordinateOf.Minus]
  simp [realArith]

theorem scaled_vertex_bound (Radius a θ : ℝ) (h0 : 0 ≤ a) (h1 : a ≤ 1) :
    Real.sqrt ((a * (Radius * Real.cos θ)) ^ 2 + (a * (Radius * Real.sin θ)) ^ 2) ≤ |Radius| := by
  rw [Real.sqrt_le_left (abs_nonneg _), sq_abs]
  have h := Real.cos_sq_add_sin_sq θ
  have e1 : (a * (Radius * Real.cos θ)) ^ 2 + (a * (Radius * Real.sin θ)) ^ 2 =
      a ^ 2 * Radius ^ 2 := by
    linear_combination a ^ 2 * Radius ^ 2 * h
  rw [e1]
  have ha : a ^ 2 ≤ 1 := by nlinarith
  nlinarith [sq_nonneg Radius]

/-- In exact real arithmetic, where no operation rounds, the end points of
line `i < l` of edge `e` are `(1 - i/l)·V_e` and `((i+1)/l)·V_((e+1) mod c)`
and lie within distance `|Radius|` of the origin.  This is a statement about
the idealisation `realArith` only: float64 rounds. -/
theorem parabolicLine_exact_bound (setup : Parabolic ℝ) (c l e i : Nat) (hi : i < l)
    (p : CoordinateOf ℝ) (hp : p ∈ parabolicLine realArith setup c l e i) :
    Real.sqrt (p.X ^ 2 + p.Y ^ 2) ≤ |setup.Radius| := by
  have hl : (0 : ℝ) < (l : ℝ) := by exact_mod_cast (show 0 < l by omega)
  have hil : (i : ℝ) + 1 ≤ (l : ℝ) := by exact_mod_cast hi
  have ha0 : 0 ≤ 1 - (i : ℝ) / (l : ℝ) := by
    rw [sub_nonneg, div_le_one hl]; linarith
  have ha1 : 1 - (i : ℝ) / (l : ℝ) ≤ 1 := by
    have : 0 ≤ (i : ℝ) / (l : ℝ) := by positivity
    linarith
  have hb0 : 0 ≤ ((i : ℝ) + 1) / (l : ℝ) := by positivity
  have hb1 : ((i : ℝ) + 1) / (l : ℝ) ≤ 1 := by rwa [div_le_one hl]
  have hs := fun θ => scaled_vertex_bound setup.Radius _ θ ha0 ha1
  have ht := fun θ => scaled_vertex_bound setup.Radius _ θ hb0 hb1
  have key : ∀ q : CoordinateOf ℝ,
      (∃ θ, q.X = (1 - (i : ℝ) / (l : ℝ)) * (setup.Radius * Real.cos θ) ∧
            q.Y = (1 - (i : ℝ) / (l : ℝ)) * (setup.Radius * Real.sin θ)) ∨
      (∃ θ, q.X = (((i : ℝ) + 1) / (l : ℝ)) * (setup.Radius * Real.cos θ) ∧
            q.Y = (((i : ℝ) + 1) / (l : ℝ)) * (setup.Radius * Real.sin θ)) →
      Real.sqrt (q.X ^ 2 + q.Y ^ 2) ≤ |setup.Radius| := by
    rintro q (⟨θ, hx, hy⟩ | ⟨θ, hx, hy⟩)
    · rw [hx, hy]; exact hs θ
    · rw [hx, hy]; exact ht θ
  have hstart : ∀ q : CoordinateOf ℝ,
      q = CoordinateOf.Add realArith
        (CoordinateOf.Scaled realArith
          (CoordinateOf.Minus realArith (CoordinateOf.origin realArith)
            (polygonVertex realArith setup e))
          (realArith.div (realArith.ofInt (i : Int)) (realArith.ofInt (l : Int))))
        (polygonVertex realArith setup e) →
      Real.sqrt (q.X ^ 2 + q.Y ^ 2) ≤ |setup.Radius| := by
    intro q hq
    apply key
    left
    refine ⟨realArith.mul (realArith.div realArith.twoPi setup.PolygonEdgeCount)
      (realArith.ofInt (e : Int)), ?_, ?_⟩ <;>
    · rw [hq]
      simp only [CoordinateOf.Add, CoordinateOf.Scaled, CoordinateOf.Minus, CoordinateOf.origin,
        polygonVertex, realArith, Int.cast_natCast]
      ring
  have hend : ∀ q : CoordinateOf ℝ,
      q = CoordinateOf.Add realArith
        (CoordinateOf.Scaled realArith
          (CoordinateOf.Minus realArith (polygonVertex realArith setup ((e + 1) % c))
            (CoordinateOf.origin realArith))
          (realArith.div (realArith.ofInt ((i : Int) + 1)) (realArith.ofInt (l : Int))))
        (CoordinateOf.origin realArith) →
      Real.sqrt (q.X ^ 2 + q.Y ^ 2) ≤ |setup.Radius| := by
    intro q hq
    apply key
    right
    refine ⟨realArith.mul (realArith.div realArith.twoPi setup.PolygonEdgeCount)
      (realArith.ofInt (((e + 1) % c : Nat) : Int)), ?_, ?_⟩ <;>
    · rw [hq]
      simp only [CoordinateOf.Add, CoordinateOf.Scaled, CoordinateOf.Minus, CoordinateOf.origin,
        polygonVertex, realArith, Int.cast_natCast, Int.cast_add, Int.cast_one]
      ring
  unfold parabolicLine at hp
  simp only at hp
  split at hp <;>
    (simp only [List.mem_cons, List.mem_singleton, List.not_mem_nil, or_false] at hp
     rcases hp with h | h
     · first | exact hstart p h | exact hend p h
     · first | exact hstart p h | exact hend p h)

end Gocupi
